import Mathlib

/-!
Verification development for the RustJVM repository: a shallow embedding of
`src/bytes.rs` (byte reader), `src/class.rs` (class-file parser and constant
pool) and `src/interpreter.rs` (bytecode interpreter), together with theorems
about the embedded definitions.

Modelling conventions:
* Rust `String` values (UTF-8 encoded) are modelled as their byte sequences,
  `List Nat`; equality of Rust strings is equality of these byte lists.
* Machine integers are `Nat` (resp. `Int` for signed values) with explicit
  wrap-around arithmetic where the Rust code can overflow; `usize` subtraction
  wraps modulo 2^64 (release-mode semantics of the Rust code).
* `io::Result` values and panics (`panic!`, `todo!`, `expect`, `unwrap`) are
  modelled with `Except Err`; a panic of an `expect` on a `Result`/`Option`
  propagates the underlying error value.
* The byte sources actually used by the repository (`File`, `Cursor<&[u8]>`)
  are modelled by `Cursor`: `read` into an n-byte zero-initialised buffer
  copies `min n remaining` bytes and advances by that amount, exactly as
  `std::io::Cursor` does.  The `read` calls in `bytes.rs` ignore the returned
  count, so a short read leaves the tail of the buffer zero — this behaviour
  is modelled faithfully by `Cursor.readZeroPad`.
-/

namespace RustJvm

/-- Error values: the explicit `io::Error`s of the source plus its panics
(`expect`/`unwrap`/`panic!`/`todo!`), which are modelled as errors. -/
inductive Err where
  | shortRead                          -- "Expected more bytes than were read"
  | invalidUtf8                        -- String::from_utf8 .expect panic
  | malformedConstantPoolTag (tag : Nat)  -- "Unexpected constant pool type"
  | constantPoolIndexOutOfRange (index : Nat) -- get_value .expect panic
  | constantPoolTypeMismatch           -- the Err(()) of the pool resolvers
  | unsupportedFeature (what : String) -- todo! for interfaces / fields
  | unimplementedOpcode (op : Nat)     -- todo! in the dispatch loop
  | panicked (msg : String)            -- other panics of the interpreter
  | outOfFuel                          -- model artefact: recursion fuel ran out
deriving DecidableEq, Repr

/-- A byte source: the model of `std::io::Cursor` over a byte buffer (all
byte sources the repository actually reads from behave this way). -/
structure Cursor where
  data : List Nat
  pos : Nat
deriving DecidableEq, Repr

/-- Number of bytes left in the source. -/
def Cursor.remaining (c : Cursor) : Nat := c.data.length - c.pos

/-- Model of `self.read(&mut buf)` into a zero-initialised buffer of length
`n`: copies `min n remaining` bytes, leaves the rest of the buffer zero, and
advances the position by the number of bytes actually read. -/
def Cursor.readZeroPad (c : Cursor) (n : Nat) : List Nat × Cursor :=
  let avail := (c.data.drop c.pos).take n
  (avail ++ List.replicate (n - avail.length) 0, ⟨c.data, c.pos + avail.length⟩)

/-- The parsing monad: a stateful computation over a `Cursor` that can fail;
the cursor after the call is returned even on failure (the Rust reader is
mutated in place, so consumed bytes stay consumed). -/
def ParseM (α : Type) : Type := Cursor → Except Err α × Cursor

def ParseM.bind {α β : Type} (m : ParseM α) (f : α → ParseM β) : ParseM β :=
  fun c =>
    match m c with
    | (Except.ok a, c') => f a c'
    | (Except.error e, c') => (Except.error e, c')

def ParseM.pure {α : Type} (a : α) : ParseM α := fun c => (Except.ok a, c)

instance : Monad ParseM where
  pure := ParseM.pure
  bind := ParseM.bind

/-- Failure inside `ParseM` (an `Err` returned through `?` or a panic). -/
def pthrow {α : Type} (e : Err) : ParseM α := fun c => (Except.error e, c)

/-- Big-endian value of a byte list (`uN::from_be_bytes`). -/
def beVal (l : List Nat) : Nat := l.foldl (fun acc b => acc * 256 + b) 0

/-- Two's-complement reading of a 32-bit big-endian value (`i32::from_be_bytes`). -/
def toInt32 (n : Nat) : Int := if n < 2 ^ 31 then (n : Int) else (n : Int) - 2 ^ 32

/-- Two's-complement reading of a 64-bit big-endian value (`i64::from_be_bytes`). -/
def toInt64 (n : Nat) : Int := if n < 2 ^ 63 then (n : Int) else (n : Int) - 2 ^ 64

/-! ### The byte reader (`src/bytes.rs`, trait `ByteParsable`)

Every primitive performs exactly one `self.read(&mut buf)` into a
zero-initialised buffer and, except for `parse_n_bytes`, ignores the number
of bytes actually read. -/

/-- `parse_u1_as_bytes`: one `read` into `[0; 1]`, result returned as bytes. -/
def parse_u1_as_bytes : ParseM (List Nat) := fun c =>
  let (buf, c') := c.readZeroPad 1
  (Except.ok buf, c')

/-- `parse_u2_as_bytes`: one `read` into `[0; 2]`, result returned as bytes. -/
def parse_u2_as_bytes : ParseM (List Nat) := fun c =>
  let (buf, c') := c.readZeroPad 2
  (Except.ok buf, c')

/-- `parse_u4_as_bytes`: one `read` into `[0; 4]`, result returned as bytes. -/
def parse_u4_as_bytes : ParseM (List Nat) := fun c =>
  let (buf, c') := c.readZeroPad 4
  (Except.ok buf, c')

/-- `parse_n_bytes`: reads into a zero-initialised vector of length `n` and
returns an explicit error when fewer than `n` bytes were obtained. -/
def parse_n_bytes (n : Nat) : ParseM (List Nat) := fun c =>
  let (buf, c') := c.readZeroPad n
  if c.remaining < n then (Except.error Err.shortRead, c')
  else (Except.ok buf, c')

/-- `parse_u1`: `u8::from_be_bytes` of a 1-byte buffer. -/
def parse_u1 : ParseM Nat := fun c =>
  let (buf, c') := c.readZeroPad 1
  (Except.ok (beVal buf), c')

/-- `parse_u2`: `u16::from_be_bytes` of a 2-byte buffer. -/
def parse_u2 : ParseM Nat := fun c =>
  let (buf, c') := c.readZeroPad 2
  (Except.ok (beVal buf), c')

/-- `parse_u4`: `u32::from_be_bytes` of a 4-byte buffer. -/
def parse_u4 : ParseM Nat := fun c =>
  let (buf, c') := c.readZeroPad 4
  (Except.ok (beVal buf), c')

/-- `parse_u4_as_f32`: the IEEE-754 value is kept as its raw 32-bit pattern. -/
def parse_u4_as_f32 : ParseM Nat := fun c =>
  let (buf, c') := c.readZeroPad 4
  (Except.ok (beVal buf), c')

/-- `parse_u4_as_i32`: `i32::from_be_bytes` of a 4-byte buffer. -/
def parse_u4_as_i32 : ParseM Int := fun c =>
  let (buf, c') := c.readZeroPad 4
  (Except.ok (toInt32 (beVal buf)), c')

/-- `parse_u8_as_f64`: the IEEE-754 value is kept as its raw 64-bit pattern. -/
def parse_u8_as_f64 : ParseM Nat := fun c =>
  let (buf, c') := c.readZeroPad 8
  (Except.ok (beVal buf), c')

/-- `parse_u8_as_i64`: `i64::from_be_bytes` of an 8-byte buffer. -/
def parse_u8_as_i64 : ParseM Int := fun c =>
  let (buf, c') := c.readZeroPad 8
  (Except.ok (toInt64 (beVal buf)), c')

/-- Continuation byte test of UTF-8 validation (`0x80..=0xBF`). -/
def isUtf8Cont (b : Nat) : Bool := 0x80 ≤ b && b ≤ 0xBF

/-- Validity of a byte sequence as UTF-8, as checked by `String::from_utf8`. -/
def utf8Valid : List Nat → Bool
  | [] => true
  | b :: rest =>
    if b ≤ 0x7F then utf8Valid rest
    else if 0xC2 ≤ b && b ≤ 0xDF then
      match rest with
      | c1 :: r => isUtf8Cont c1 && utf8Valid r
      | [] => false
    else if b = 0xE0 then
      match rest with
      | c1 :: c2 :: r => (0xA0 ≤ c1 && c1 ≤ 0xBF) && isUtf8Cont c2 && utf8Valid r
      | _ => false
    else if (0xE1 ≤ b && b ≤ 0xEC) || b = 0xEE || b = 0xEF then
      match rest with
      | c1 :: c2 :: r => isUtf8Cont c1 && isUtf8Cont c2 && utf8Valid r
      | _ => false
    else if b = 0xED then
      match rest with
      | c1 :: c2 :: r => (0x80 ≤ c1 && c1 ≤ 0x9F) && isUtf8Cont c2 && utf8Valid r
      | _ => false
    else if b = 0xF0 then
      match rest with
      | c1 :: c2 :: c3 :: r =>
        (0x90 ≤ c1 && c1 ≤ 0xBF) && isUtf8Cont c2 && isUtf8Cont c3 && utf8Valid r
      | _ => false
    else if 0xF1 ≤ b && b ≤ 0xF3 then
      match rest with
      | c1 :: c2 :: c3 :: r =>
        isUtf8Cont c1 && isUtf8Cont c2 && isUtf8Cont c3 && utf8Valid r
      | _ => false
    else if b = 0xF4 then
      match rest with
      | c1 :: c2 :: c3 :: r =>
        (0x80 ≤ c1 && c1 ≤ 0x8F) && isUtf8Cont c2 && isUtf8Cont c3 && utf8Valid r
      | _ => false
    else false

/-- `parse_utf8`: reads `len` bytes (zero-padded on a short read, like every
other fixed-size read in `bytes.rs`) and then applies `String::from_utf8`,
whose `.expect` panic on invalid UTF-8 is modelled as `Err.invalidUtf8`.  The
resulting Rust `String` is modelled by its byte sequence. -/
def parse_utf8 (len : Nat) : ParseM (List Nat) := fun c =>
  let (buf, c') := c.readZeroPad len
  if utf8Valid buf then (Except.ok buf, c')
  else (Except.error Err.invalidUtf8, c')

/-- Byte sequence of an ASCII string literal (its UTF-8 encoding). -/
def asciiBytes (s : String) : List Nat := s.toList.map Char.toNat

/-! ### The constant pool (`src/class.rs`) -/

/-- `ConstantPoolInfo`: the tagged constant-pool entry.  `Float`/`Double`
carry the raw IEEE-754 bit pattern of the parsed `f32`/`f64` (the bit
pattern determines the float value uniquely). -/
inductive ConstantPoolInfo where
  | Class (name_index : Nat)
  | Fieldref (class_index : Nat) (name_and_type_index : Nat)
  | Methodref (class_index : Nat) (name_and_type_index : Nat)
  | InterfaceMethodref (class_index : Nat) (name_and_type_index : Nat)
  | String (string_index : Nat)
  | Integer (value : Int)
  | Float (bits : Nat)
  | Long (value : Int)
  | Double (bits : Nat)
  | NameAndType (name_index : Nat) (descriptor_index : Nat)
  | Utf8 (value : List Nat)
  | MethodHandle (reference_kind : Nat) (reference_index : Nat)
  | MethodType (descriptor_index : Nat)
  | InvokeDynamic (bootstrap_method_attr_index : Nat) (name_and_type_index : Nat)
deriving DecidableEq, Repr

/-- `ConstantPool::get_value` on `Vec<ConstantPoolInfo>`: the 1-based
accessor `self.get(index as usize - 1)` followed by `.expect`.  Index 0
(`usize` underflow) and indices beyond the pool size hit the `.expect`
panic, modelled as `constantPoolIndexOutOfRange`. -/
def get_value (pool : List ConstantPoolInfo) (index : Nat) : Except Err ConstantPoolInfo :=
  match index with
  | 0 => Except.error (Err.constantPoolIndexOutOfRange 0)
  | i + 1 =>
    match pool[i]? with
    | some v => Except.ok v
    | none => Except.error (Err.constantPoolIndexOutOfRange (i + 1))

/-- `ConstantPool::get_class_name_from_index`: the entry must be `Class`
and its `name_index` must reach `Utf8`; the `Err(())` returns of the source
are modelled as `constantPoolTypeMismatch`. -/
def get_class_name_from_index (pool : List ConstantPoolInfo) (index : Nat) :
    Except Err (List Nat) := do
  let class_ ← get_value pool index
  match class_ with
  | ConstantPoolInfo.Class name_index => do
    let name ← get_value pool name_index
    match name with
    | ConstantPoolInfo.Utf8 value => Except.ok value
    | _ => Except.error Err.constantPoolTypeMismatch
  | _ => Except.error Err.constantPoolTypeMismatch

/-- `ConstantPool::get_utf8_from_index`: the entry must be `Utf8`. -/
def get_utf8_from_index (pool : List ConstantPoolInfo) (index : Nat) :
    Except Err (List Nat) := do
  let utf8 ← get_value pool index
  match utf8 with
  | ConstantPoolInfo.Utf8 value => Except.ok value
  | _ => Except.error Err.constantPoolTypeMismatch

/-- Modelled from the spec: `get_name_and_type` is called by `run_main`
(src/interpreter.rs) but its definition is not among the provided sources;
spec §4.2 specifies it as `resolve_name_and_type(index)`: the index must
reference a `NameAndType` entry, both of whose indirections must resolve to
`Utf8`; it returns the pair of name text and descriptor text, and fails with
a type-mismatch error otherwise. -/
def get_name_and_type (pool : List ConstantPoolInfo) (index : Nat) :
    Except Err (List Nat × List Nat) := do
  let entry ← get_value pool index
  match entry with
  | ConstantPoolInfo.NameAndType name_index descriptor_index => do
    let name ← get_utf8_from_index pool name_index
    let descriptor ← get_utf8_from_index pool descriptor_index
    Except.ok (name, descriptor)
  | _ => Except.error Err.constantPoolTypeMismatch

/-- `ConstantPoolInfo::parse`: one tag byte, then the variant payload; an
unknown tag is the explicit "Unexpected constant pool type" error, raised
after consuming only the tag byte.  Tag values are those of the
`ConstantPoolType` module of the source. -/
def ConstantPoolInfo.parse : ParseM ConstantPoolInfo := do
  let tag ← parse_u1
  if tag = 7 then do       -- Class
    let name_index ← parse_u2
    pure (ConstantPoolInfo.Class name_index)
  else if tag = 9 then do  -- Fieldref
    let class_index ← parse_u2
    let name_and_type_index ← parse_u2
    pure (ConstantPoolInfo.Fieldref class_index name_and_type_index)
  else if tag = 10 then do -- Methodref
    let class_index ← parse_u2
    let name_and_type_index ← parse_u2
    pure (ConstantPoolInfo.Methodref class_index name_and_type_index)
  else if tag = 11 then do -- InterfaceMethodref
    let class_index ← parse_u2
    let name_and_type_index ← parse_u2
    pure (ConstantPoolInfo.InterfaceMethodref class_index name_and_type_index)
  else if tag = 8 then do  -- String
    let string_index ← parse_u2
    pure (ConstantPoolInfo.String string_index)
  else if tag = 3 then do  -- Integer
    let value ← parse_u4_as_i32
    pure (ConstantPoolInfo.Integer value)
  else if tag = 4 then do  -- Float
    let value ← parse_u4_as_f32
    pure (ConstantPoolInfo.Float value)
  else if tag = 5 then do  -- Long
    let value ← parse_u8_as_i64
    pure (ConstantPoolInfo.Long value)
  else if tag = 6 then do  -- Double
    let value ← parse_u8_as_f64
    pure (ConstantPoolInfo.Double value)
  else if tag = 12 then do -- NameAndType
    let name_index ← parse_u2
    let descriptor_index ← parse_u2
    pure (ConstantPoolInfo.NameAndType name_index descriptor_index)
  else if tag = 1 then do  -- Utf8
    let length ← parse_u2
    let value ← parse_utf8 length
    pure (ConstantPoolInfo.Utf8 value)
  else if tag = 15 then do -- MethodHandle
    let reference_kind ← parse_u1
    let reference_index ← parse_u2
    pure (ConstantPoolInfo.MethodHandle reference_kind reference_index)
  else if tag = 16 then do -- MethodType
    let descriptor_index ← parse_u2
    pure (ConstantPoolInfo.MethodType descriptor_index)
  else if tag = 18 then do -- InvokeDynamic
    let bootstrap_method_attr_index ← parse_u2
    let name_and_type_index ← parse_u2
    pure (ConstantPoolInfo.InvokeDynamic bootstrap_method_attr_index name_and_type_index)
  else
    pthrow (Err.malformedConstantPoolTag tag)

/-- Sequential repetition of a parser, the model of the
`for _ in 0..n { v.push(parse?) }` loops of the source. -/
def parseListN {α : Type} (p : ParseM α) : Nat → ParseM (List α)
  | 0 => pure []
  | n + 1 => do
    let a ← p
    let rest ← parseListN p n
    pure (a :: rest)

/-! ### Attributes, methods and the class file (`src/class.rs`) -/

/-- `Exception`: one exception-table row of a `Code` attribute. -/
structure Exception where
  start_pc : Nat
  end_pc : Nat
  handler_pc : Nat
  catch_type : Nat
deriving DecidableEq, Repr

/-- `Exception::parse` (impl `Parsable`). -/
def Exception.parse : ParseM Exception := do
  let start_pc ← parse_u2
  let end_pc ← parse_u2
  let handler_pc ← parse_u2
  let catch_type ← parse_u2
  pure ⟨start_pc, end_pc, handler_pc, catch_type⟩

/-- `LineNumber`: one line-number-table row. -/
structure LineNumber where
  start_pc : Nat
  line_number : Nat
deriving DecidableEq, Repr

/-- `LineNumber::parse` (impl `Parsable`). -/
def LineNumber.parse : ParseM LineNumber := do
  let start_pc ← parse_u2
  let line_number ← parse_u2
  pure ⟨start_pc, line_number⟩

mutual

/-- `AttributeKind`: the decoded attribute payload.  The parser of the
source only ever produces `ConstantValue`, `Code`, `SourceFile`,
`LineNumberTable` and `Other`; the remaining variants exist in the Rust enum
but are never constructed. -/
inductive AttributeKind where
  | ConstantValue (constant_value_index : Nat)
  | Code (max_stack : Nat) (max_locals : Nat) (code : List Nat)
      (exception_table : List Exception) (attributes : List AttributeInfo)
  | StackMapTable
  | Exceptions
  | InnerClasses
  | EnclosingMethod
  | Synthetic
  | Signature
  | SourceFile (source_file_index : Nat) (source_file_value : List Nat)
  | SourceDebugExtension
  | LineNumberTable (line_number_table : List LineNumber)
  | LocalVariableTable
  | LocalVariableTypeTable
  | Deprecated
  | RuntimeVisibleAnnotationList
  | RuntimeInvisibleAnnotationList
  | RuntimeVisibleParameterAnnotationList
  | RuntimeInvisibleParameterAnnotationList
  | AnnotationDefault
  | BootstrapMethods
  | Other (bytes : List Nat)

/-- `AttributeInfo`: name index, resolved name and decoded payload (the
`attribute` field of the Rust struct is named `attr` here because
`attribute` is a Lean keyword). -/
inductive AttributeInfo where
  | mk (attribute_name_index : Nat) (attribute_name : List Nat)
      (attr : AttributeKind)

end

/-- Field projection of `AttributeInfo.attribute_name_index`. -/
def AttributeInfo.attribute_name_index : AttributeInfo → Nat
  | AttributeInfo.mk i _ _ => i

/-- Field projection of `AttributeInfo.attribute_name`. -/
def AttributeInfo.attribute_name : AttributeInfo → List Nat
  | AttributeInfo.mk _ n _ => n

/-- Field projection of the `attribute` field of `AttributeInfo`. -/
def AttributeInfo.attr : AttributeInfo → AttributeKind
  | AttributeInfo.mk _ _ a => a

/-- Lift of a constant-pool accessor result into the parsing monad: the
source wraps accessor calls in `.expect`, whose panic on failure is
modelled by propagating the underlying error. -/
def liftExcept {α : Type} : Except Err α → ParseM α
  | Except.ok v => ParseM.pure v
  | Except.error e => pthrow e

/-- `AttributeInfo::parse` (impl `ClassParsable`): reads the name index,
resolves it through the constant pool (the `.expect` panic on failure is
modelled by propagating the pool error), reads the 32-bit length, carves the
payload out with the atomic `parse_n_bytes`, and sub-parses the payload from
an isolated cursor according to the resolved name.  Left-over payload bytes
are silently ignored, exactly as in the source.  The `fuel` argument is a
model artefact bounding the nesting depth of attributes; every claim below
supplies enough fuel. -/
def AttributeInfo.parse (pool : List ConstantPoolInfo) :
    Nat → ParseM AttributeInfo
  | 0 => pthrow Err.outOfFuel
  | fuel + 1 => do
    let attribute_name_index ← parse_u2
    let attribute_name ← liftExcept (get_utf8_from_index pool attribute_name_index)
    let attribute_length ← parse_u4
    let bytes ← parse_n_bytes attribute_length
    let attr ←
      if attribute_name = asciiBytes "ConstantValue" then
        match parse_u2 ⟨bytes, 0⟩ with
        | (Except.ok constant_value_index, _) =>
          ParseM.pure (AttributeKind.ConstantValue constant_value_index)
        | (Except.error e, _) => pthrow e
      else if attribute_name = asciiBytes "Code" then
        match (do
            let max_stack ← parse_u2
            let max_locals ← parse_u2
            let code_length ← parse_u4
            let code ← parse_n_bytes code_length
            let exception_table_length ← parse_u2
            let exception_table ← parseListN Exception.parse exception_table_length
            let attributes_count ← parse_u2
            let attributes ← parseListN (AttributeInfo.parse pool fuel) attributes_count
            ParseM.pure (AttributeKind.Code max_stack max_locals code
              exception_table attributes) : ParseM AttributeKind) ⟨bytes, 0⟩ with
        | (Except.ok k, _) => ParseM.pure k
        | (Except.error e, _) => pthrow e
      else if attribute_name = asciiBytes "SourceFile" then
        match (do
            let source_file_index ← parse_u2
            let source_file_value ← liftExcept (get_utf8_from_index pool source_file_index)
            ParseM.pure (AttributeKind.SourceFile source_file_index source_file_value) :
              ParseM AttributeKind) ⟨bytes, 0⟩ with
        | (Except.ok k, _) => ParseM.pure k
        | (Except.error e, _) => pthrow e
      else if attribute_name = asciiBytes "LineNumberTable" then
        match (do
            let line_number_table_length ← parse_u2
            let line_number_table ← parseListN LineNumber.parse line_number_table_length
            ParseM.pure (AttributeKind.LineNumberTable line_number_table) :
              ParseM AttributeKind) ⟨bytes, 0⟩ with
        | (Except.ok k, _) => ParseM.pure k
        | (Except.error e, _) => pthrow e
      else
        ParseM.pure (AttributeKind.Other bytes)
    pure (AttributeInfo.mk attribute_name_index attribute_name attr)

/-- `MethodAccessFlags` with the bit value of each flag. -/
inductive MethodAccessFlags where
  | Public | Private | Protected | Static | Final | Synchronized
  | Bridge | VarArgs | Native | Abstract | Strict | Synthetic
deriving DecidableEq, Repr

/-- Bit value of a method access flag. -/
def MethodAccessFlags.mask : MethodAccessFlags → Nat
  | Public => 0x0001
  | Private => 0x0002
  | Protected => 0x0004
  | Static => 0x0008
  | Final => 0x0010
  | Synchronized => 0x0020
  | Bridge => 0x0040
  | VarArgs => 0x0080
  | Native => 0x0100
  | Abstract => 0x0400
  | Strict => 0x0800
  | Synthetic => 0x1000

/-- Canonical enumeration order of `MethodAccessFlags` (derive `EnumIter`). -/
def MethodAccessFlags.all : List MethodAccessFlags :=
  [Public, Private, Protected, Static, Final, Synchronized,
   Bridge, VarArgs, Native, Abstract, Strict, Synthetic]

/-- `ClassAccessFlags` with the bit value of each flag. -/
inductive ClassAccessFlags where
  | Public | Final | Super | Interface | Abstract | Synthetic | Annot | Enum
deriving DecidableEq, Repr

/-- Bit value of a class access flag (`Annot` models the Rust `Annotation`
variant). -/
def ClassAccessFlags.mask : ClassAccessFlags → Nat
  | Public => 0x0001
  | Final => 0x0010
  | Super => 0x0020
  | Interface => 0x0200
  | Abstract => 0x0400
  | Synthetic => 0x1000
  | Annot => 0x2000
  | Enum => 0x4000

/-- Canonical enumeration order of `ClassAccessFlags` (derive `EnumIter`). -/
def ClassAccessFlags.all : List ClassAccessFlags :=
  [Public, Final, Super, Interface, Abstract, Synthetic, Annot, Enum]

/-- `MethodInfo`: access flags, name/descriptor (indices and resolved
text), attributes. -/
structure MethodInfo where
  access_flags : List MethodAccessFlags
  name_index : Nat
  name : List Nat
  descriptor_index : Nat
  descriptor : List Nat
  attributes : List AttributeInfo

/-- `MethodInfo::parse` (impl `ClassParsable`). -/
def MethodInfo.parse (pool : List ConstantPoolInfo) (fuel : Nat) :
    ParseM MethodInfo := do
  let access_flags_byte ← parse_u2
  let access_flags :=
    MethodAccessFlags.all.filter (fun flag => access_flags_byte &&& flag.mask ≠ 0)
  let name_index ← parse_u2
  let name ← liftExcept (get_utf8_from_index pool name_index)
  let descriptor_index ← parse_u2
  let descriptor ← liftExcept (get_utf8_from_index pool descriptor_index)
  let attributes_count ← parse_u2
  let attributes ← parseListN (AttributeInfo.parse pool fuel) attributes_count
  pure ⟨access_flags, name_index, name, descriptor_index, descriptor, attributes⟩

/-- `ClassFile`: the parsed class file. -/
structure ClassFile where
  magic : List Nat
  minor_version : Nat
  major_version : Nat
  constant_pool : List ConstantPoolInfo
  access_flags : List ClassAccessFlags
  this_class : Nat
  super_class : Nat
  methods : List MethodInfo
  attributes : List AttributeInfo

/-- `ClassFile::parse` (impl `Parsable`): magic, versions, the constant
pool (`count - 1` entries), access flags, class indices; a nonzero
interface or field count hits a `todo!` before consuming any of the
corresponding bytes (modelled as `unsupportedFeature`); then methods and
top-level attributes. -/
def ClassFile.parse (fuel : Nat) : ParseM ClassFile := do
  let magic ← parse_u4_as_bytes
  let minor_version ← parse_u2
  let major_version ← parse_u2
  let constant_pool_count ← parse_u2
  let constant_pool ← parseListN ConstantPoolInfo.parse (constant_pool_count - 1)
  let access_flags_byte ← parse_u2
  let access_flags :=
    ClassAccessFlags.all.filter (fun flag => access_flags_byte &&& flag.mask ≠ 0)
  let this_class ← parse_u2
  let super_class ← parse_u2
  let interfaces_count ← parse_u2
  if interfaces_count ≠ 0 then
    pthrow (Err.unsupportedFeature "interfaces")
  else do
    let fields_count ← parse_u2
    if fields_count ≠ 0 then
      pthrow (Err.unsupportedFeature "fields")
    else do
      let methods_count ← parse_u2
      let methods ← parseListN (MethodInfo.parse constant_pool fuel) methods_count
      let attributes_count ← parse_u2
      let attributes ← parseListN (AttributeInfo.parse constant_pool fuel) attributes_count
      pure ⟨magic, minor_version, major_version, constant_pool, access_flags,
        this_class, super_class, methods, attributes⟩

/-! ### The bytecode interpreter (`src/interpreter.rs`) -/

/-- Opcode byte of `getstatic` (module `OpCodeType`). -/
def OpCodeType.getstatic : Nat := 0xb2

/-- Opcode byte of `invokevirtual` (module `OpCodeType`). -/
def OpCodeType.invokevirtual : Nat := 0xb6

/-- Opcode byte of `ldc` (module `OpCodeType`). -/
def OpCodeType.ldc : Nat := 0x12

/-- `OperandStackEntry` (the `Instance` struct is inlined as the class name
it carries). -/
inductive OperandStackEntry where
  | ClassInstance (class_name : List Nat)
  | Int (v : Int)
  | Float (bits : Nat)
  | String (s : List Nat)
deriving DecidableEq, Repr

/-- Test of `AttributeKind::Code`, used to locate a method's code attribute. -/
def AttributeKind.isCode : AttributeKind → Bool
  | AttributeKind.Code _ _ _ _ _ => true
  | _ => false

/-- Modelled from the spec: `ClassFile::get_main_method` is called by
`run_main` (src/interpreter.rs) but its definition is not among the provided
sources; spec §4.4 specifies it as locating the method whose name matches
the designated entry point (`main`). -/
def ClassFile.get_main_method (cf : ClassFile) : Option MethodInfo :=
  cf.methods.find? (fun m => m.name == asciiBytes "main")

/-- Modelled from the spec: `MethodInfo::get_code` is called by `run_main`
(src/interpreter.rs) but its definition is not among the provided sources;
spec §4.4 specifies it as extracting the method's `Code` attribute, failing
fatally when it is absent. -/
def MethodInfo.get_code (m : MethodInfo) : Option AttributeInfo :=
  m.attributes.find? (fun a => a.attr.isCode)

/-- Wrapping `usize` subtraction of 1, the release-mode semantics of
`len - 1` in the loop bound of `run_main` (underflows to `usize::MAX` when
`len = 0`). -/
def usizeSub1 (n : Nat) : Nat := (n + (2 ^ 64 - 1)) % 2 ^ 64

/-- The dispatch loop of `run_main`: `while position < bound` over the code
cursor, reading one opcode byte per iteration and dispatching on it.  The
accumulated `println!` lines are returned together with the outcome, so that
output emitted before a failure is observable.  `fuel` is a model artefact;
`run_main` supplies `len + 1`, which is enough because every iteration
either fails or strictly advances the cursor (see the theorems below). -/
def runLoop (pool : List ConstantPoolInfo) (bound : Nat) :
    Nat → Cursor → List OperandStackEntry → List (List Nat) →
    List (List Nat) × Except Err Unit
  | fuel, c, operand_stack, out =>
    if c.pos < bound then
      match fuel with
      | 0 => (out, Except.error Err.outOfFuel)
      | fuel + 1 =>
        match parse_u1 c with
        | (Except.error e, _) => (out, Except.error e)
        | (Except.ok instruction, c1) =>
          if instruction = OpCodeType.getstatic then
            match parse_u2 c1 with
            | (Except.error e, _) => (out, Except.error e)
            | (Except.ok field_ref_index, c2) =>
              match get_value pool field_ref_index with
              | Except.error e => (out, Except.error e)
              | Except.ok (ConstantPoolInfo.Fieldref class_index name_and_type_index) =>
                match get_class_name_from_index pool class_index with
                | Except.error e => (out, Except.error e)
                | Except.ok _field_class =>
                  match get_name_and_type pool name_and_type_index with
                  | Except.error e => (out, Except.error e)
                  | Except.ok name_and_type =>
                    runLoop pool bound fuel c2
                      (OperandStackEntry.ClassInstance name_and_type.2 :: operand_stack) out
              | Except.ok _ =>
                (out, Except.error (Err.panicked "Expected field ref to be of type Fieldref"))
          else if instruction = OpCodeType.ldc then
            match parse_u1 c1 with
            | (Except.error e, _) => (out, Except.error e)
            | (Except.ok constant_index, c2) =>
              match get_value pool constant_index with
              | Except.error e => (out, Except.error e)
              | Except.ok (ConstantPoolInfo.String string_index) =>
                match get_utf8_from_index pool string_index with
                | Except.error e => (out, Except.error e)
                | Except.ok s =>
                  runLoop pool bound fuel c2 (OperandStackEntry.String s :: operand_stack) out
              | Except.ok _ =>
                (out, Except.error (Err.panicked "Unexpected constant type"))
          else if instruction = OpCodeType.invokevirtual then
            match parse_u2 c1 with
            | (Except.error e, _) => (out, Except.error e)
            | (Except.ok method_index, c2) =>
              match get_value pool method_index with
              | Except.error e => (out, Except.error e)
              | Except.ok (ConstantPoolInfo.Methodref class_index name_and_type_index) =>
                match get_class_name_from_index pool class_index with
                | Except.error e => (out, Except.error e)
                | Except.ok field_class =>
                  match get_name_and_type pool name_and_type_index with
                  | Except.error e => (out, Except.error e)
                  | Except.ok name_and_type =>
                    if field_class = asciiBytes "java/io/PrintStream" ∧
                        name_and_type.1 = asciiBytes "println" ∧
                        name_and_type.2 = asciiBytes "(Ljava/lang/String;)V" then
                      match operand_stack with
                      | OperandStackEntry.String string :: rest =>
                        -- pop the string, then pop the receiver (`let _instance
                        -- = operand_stack.pop()` — an `Option`, never unwrapped)
                        runLoop pool bound fuel c2 (rest.drop 1) (out ++ [string])
                      | _ =>
                        (out, Except.error
                          (Err.panicked "Expected operand stack to contain string"))
                    else
                      -- no other native binding: the `if` has no `else` in the
                      -- source, so the instruction falls through silently
                      runLoop pool bound fuel c2 operand_stack out
              | Except.ok _ =>
                (out, Except.error (Err.panicked "Expected field ref to be of type Fieldref"))
          else
            (out, Except.error (Err.unimplementedOpcode instruction))
    else
      (out, Except.ok ())

/-- `run_main`: locates the entry-point method and its `Code` attribute and
runs the dispatch loop over the raw instruction bytes.  The returned list
holds one byte sequence per `println!` line emitted. -/
def run_main (cf : ClassFile) : List (List Nat) × Except Err Unit :=
  match cf.get_main_method with
  | none => ([], Except.error (Err.panicked "No main method found in class"))
  | some main =>
    match main.get_code with
    | none => ([], Except.error (Err.panicked "Code attribute"))
    | some code_attribute =>
      match code_attribute.attr with
      | AttributeKind.Code _ _ code _ _ =>
        runLoop cf.constant_pool (usizeSub1 code.length) (code.length + 1) ⟨code, 0⟩ [] []
      | _ => ([], Except.error (Err.panicked "Code attribute"))

/-! ### Serialisation of attributes

Modelled from the spec: the repository contains no serialiser, but the
round-trip property of §8 speaks of a `Code` attribute "built" with given
fields; the byte layout below follows the attribute format of §4.3/§6
(big-endian, name index u2, length u4, payload). -/

/-- Big-endian 2-byte encoding of a u16 value. -/
def u2bytes (n : Nat) : List Nat := [n / 256 % 256, n % 256]

/-- Big-endian 4-byte encoding of a u32 value. -/
def u4bytes (n : Nat) : List Nat :=
  [n / 2 ^ 24 % 256, n / 2 ^ 16 % 256, n / 256 % 256, n % 256]

/-- Concatenated serialisation of a list (helper for fixed-width rows). -/
def serList {α : Type} (ser : α → List Nat) : List α → List Nat
  | [] => []
  | a :: as => ser a ++ serList ser as

/-- Modelled from the spec: byte form of one exception-table row (§4.3,
four 16-bit fields). -/
def serializeException (e : Exception) : List Nat :=
  u2bytes e.start_pc ++ u2bytes e.end_pc ++ u2bytes e.handler_pc ++ u2bytes e.catch_type

/-- Modelled from the spec: byte form of one line-number-table row. -/
def serializeLineNumber (l : LineNumber) : List Nat :=
  u2bytes l.start_pc ++ u2bytes l.line_number

mutual

/-- Modelled from the spec: byte form of an attribute (name index u2,
payload length u4, payload; §4.3). -/
def serializeAttr : AttributeInfo → List Nat
  | AttributeInfo.mk attribute_name_index _ k =>
    u2bytes attribute_name_index ++ u4bytes (serializePayload k).length ++ serializePayload k

/-- Modelled from the spec: byte form of an attribute payload for the kinds
the parser decodes (§4.3); the never-parsed kinds serialise to `[]` and are
excluded by well-formedness. -/
def serializePayload : AttributeKind → List Nat
  | AttributeKind.ConstantValue i => u2bytes i
  | AttributeKind.Code ms ml cd et ats =>
    u2bytes ms ++ u2bytes ml ++ u4bytes cd.length ++ cd ++ u2bytes et.length ++
    serList serializeException et ++ u2bytes ats.length ++ serializeAttrList ats
  | AttributeKind.SourceFile i _ => u2bytes i
  | AttributeKind.LineNumberTable rows => u2bytes rows.length ++ serList serializeLineNumber rows
  | AttributeKind.Other bytes => bytes
  | _ => []

/-- Concatenated serialisation of a list of attributes. -/
def serializeAttrList : List AttributeInfo → List Nat
  | [] => []
  | a :: as => serializeAttr a ++ serializeAttrList as

end

/-- Field-width bound of an exception row (each field fits in a u2). -/
def wfException (e : Exception) : Bool :=
  decide (e.start_pc < 2 ^ 16) && decide (e.end_pc < 2 ^ 16) &&
  decide (e.handler_pc < 2 ^ 16) && decide (e.catch_type < 2 ^ 16)

/-- Field-width bound of a line-number row. -/
def wfLineNumber (l : LineNumber) : Bool :=
  decide (l.start_pc < 2 ^ 16) && decide (l.line_number < 2 ^ 16)

mutual

/-- Well-formedness of an attribute for serialisation: the name index fits
in a u2 and resolves through the pool to the stored name, the payload
length fits in a u4, and the payload is well-formed for that name. -/
def wfAttr (pool : List ConstantPoolInfo) : AttributeInfo → Bool
  | AttributeInfo.mk attribute_name_index attribute_name k =>
    decide (attribute_name_index < 2 ^ 16) &&
    (match get_utf8_from_index pool attribute_name_index with
     | Except.ok v => v = attribute_name
     | Except.error _ => false) &&
    decide ((serializePayload k).length < 2 ^ 32) &&
    wfPayload pool attribute_name k

/-- Well-formedness of an attribute payload: the stored name matches the
variant, every count and index fits its field width, and nested structures
are themselves well-formed. -/
def wfPayload (pool : List ConstantPoolInfo) (an : List Nat) : AttributeKind → Bool
  | AttributeKind.ConstantValue i =>
    decide (an = asciiBytes "ConstantValue") && decide (i < 2 ^ 16)
  | AttributeKind.Code ms ml cd et ats =>
    decide (an = asciiBytes "Code") && decide (ms < 2 ^ 16) && decide (ml < 2 ^ 16) &&
    decide (cd.length < 2 ^ 32) && decide (et.length < 2 ^ 16) && et.all wfException &&
    decide (ats.length < 2 ^ 16) && wfAttrList pool ats
  | AttributeKind.SourceFile i v =>
    decide (an = asciiBytes "SourceFile") && decide (i < 2 ^ 16) &&
    (match get_utf8_from_index pool i with
     | Except.ok w => w = v
     | Except.error _ => false)
  | AttributeKind.LineNumberTable rows =>
    decide (an = asciiBytes "LineNumberTable") && decide (rows.length < 2 ^ 16) &&
    rows.all wfLineNumber
  | AttributeKind.Other _ =>
    !decide (an = asciiBytes "ConstantValue") && !decide (an = asciiBytes "Code") &&
    !decide (an = asciiBytes "SourceFile") && !decide (an = asciiBytes "LineNumberTable")
  | _ => false

/-- Well-formedness of a list of attributes. -/
def wfAttrList (pool : List ConstantPoolInfo) : List AttributeInfo → Bool
  | [] => true
  | a :: as => wfAttr pool a && wfAttrList pool as

end

/-! ### Concrete instances used by witnesses and counterexamples -/

/-- Constant pool of the hello-world scenario (1-based positions 1..12). -/
def helloPool : List ConstantPoolInfo :=
  [ ConstantPoolInfo.Utf8 (asciiBytes "java/io/PrintStream"),   -- 1
    ConstantPoolInfo.Class 1,                                   -- 2
    ConstantPoolInfo.Utf8 (asciiBytes "out"),                   -- 3
    ConstantPoolInfo.Utf8 (asciiBytes "Ljava/io/PrintStream;"), -- 4
    ConstantPoolInfo.NameAndType 3 4,                           -- 5
    ConstantPoolInfo.Fieldref 2 5,                              -- 6
    ConstantPoolInfo.Utf8 (asciiBytes "Hello, World!"),         -- 7
    ConstantPoolInfo.String 7,                                  -- 8
    ConstantPoolInfo.Utf8 (asciiBytes "println"),               -- 9
    ConstantPoolInfo.Utf8 (asciiBytes "(Ljava/lang/String;)V"), -- 10
    ConstantPoolInfo.NameAndType 9 10,                          -- 11
    ConstantPoolInfo.Methodref 2 11 ]                           -- 12

/-- A `main` method with the given instruction bytes and no other payload. -/
def mainWithCode (code : List Nat) : MethodInfo :=
  ⟨[], 0, asciiBytes "main", 0, asciiBytes "([Ljava/lang/String;)V",
   [AttributeInfo.mk 0 (asciiBytes "Code") (AttributeKind.Code 2 1 code [] [])]⟩

/-- The hello-world class file: `getstatic 6; ldc 8; invokevirtual 12`. -/
def helloClass : ClassFile :=
  ⟨[0xCA, 0xFE, 0xBA, 0xBE], 0, 52, helloPool, [], 0, 0,
   [mainWithCode [0xb2, 0, 6, 0x12, 8, 0xb6, 0, 12]], []⟩

/-- A pool whose `Methodref` at position 6 resolves to
(`Foo`, `bar`, `()V`) — not the hardcoded native binding. -/
def fooPool : List ConstantPoolInfo :=
  [ ConstantPoolInfo.Utf8 (asciiBytes "Foo"),   -- 1
    ConstantPoolInfo.Class 1,                   -- 2
    ConstantPoolInfo.Utf8 (asciiBytes "bar"),   -- 3
    ConstantPoolInfo.Utf8 (asciiBytes "()V"),   -- 4
    ConstantPoolInfo.NameAndType 3 4,           -- 5
    ConstantPoolInfo.Methodref 2 5 ]            -- 6

/-- Class file whose single instruction is `invokevirtual` on the
non-println `Methodref` of `fooPool`. -/
def fooClass : ClassFile :=
  ⟨[0xCA, 0xFE, 0xBA, 0xBE], 0, 52, fooPool, [], 0, 0,
   [mainWithCode [0xb6, 0, 6]], []⟩

/-- Class file whose code is the single unknown opcode byte `0x03`. -/
def unknownOpClass : ClassFile :=
  ⟨[0xCA, 0xFE, 0xBA, 0xBE], 0, 52, [], [], 0, 0, [mainWithCode [0x03]], []⟩

/-- Class file whose `main` has an empty instruction sequence. -/
def emptyCodeClass : ClassFile :=
  ⟨[0xCA, 0xFE, 0xBA, 0xBE], 0, 52, [], [], 0, 0, [mainWithCode []], []⟩

/-- A class-file byte stream up to a nonzero `interfaces_count` (= 1):
magic, versions, constant-pool count 1 (no entries), access flags,
this/super, then `00 01`. -/
def interfaceBytes : List Nat :=
  [0xCA, 0xFE, 0xBA, 0xBE, 0, 0, 0, 52, 0, 1, 0, 33, 0, 0, 0, 0, 0, 1]

/-- A class-file byte stream with `interfaces_count` = 0 followed by a
nonzero `fields_count` (= 1). -/
def fieldBytes : List Nat :=
  [0xCA, 0xFE, 0xBA, 0xBE, 0, 0, 0, 52, 0, 1, 0, 33, 0, 0, 0, 0, 0, 0, 0, 1]

/-- A pool resolving the attribute names used by the round-trip witness. -/
def attrNamePool : List ConstantPoolInfo :=
  [ ConstantPoolInfo.Utf8 (asciiBytes "Code"),       -- 1
    ConstantPoolInfo.Utf8 (asciiBytes "Whatever"),   -- 2
    ConstantPoolInfo.Utf8 (asciiBytes "SourceFile"), -- 3
    ConstantPoolInfo.Utf8 (asciiBytes "Main.java") ] -- 4

/-- A nested `Code` attribute: max_stack 2, max_locals 3, a 4-byte
instruction sequence, one exception row, and two nested attributes (an
opaque one and a `SourceFile`). -/
def demoCodeAttr : AttributeInfo :=
  AttributeInfo.mk 1 (asciiBytes "Code")
    (AttributeKind.Code 2 3 [0xb2, 0, 6, 0x57] [⟨1, 2, 3, 0⟩]
      [AttributeInfo.mk 2 (asciiBytes "Whatever") (AttributeKind.Other [9, 9, 9]),
       AttributeInfo.mk 3 (asciiBytes "SourceFile")
         (AttributeKind.SourceFile 4 (asciiBytes "Main.java"))])

/-! ### Evaluation lemmas for the parsing monad and the byte primitives -/

theorem ParseM.bind_of_ok {α β : Type} {m : ParseM α} {f : α → ParseM β} {c c' : Cursor}
    {a : α} (h : m c = (Except.ok a, c')) : (m >>= f) c = f a c' := by
  show ParseM.bind m f c = f a c'
  simp [ParseM.bind, h]

theorem ParseM.bind_of_error {α β : Type} {m : ParseM α} {f : α → ParseM β} {c c' : Cursor}
    {e : Err} (h : m c = (Except.error e, c')) : (m >>= f) c = (Except.error e, c') := by
  show ParseM.bind m f c = (Except.error e, c')
  simp [ParseM.bind, h]

theorem ParseM.pure_eval {α : Type} (a : α) (c : Cursor) :
    (Pure.pure a : ParseM α) c = (Except.ok a, c) := rfl

theorem Cursor.readZeroPad_of_prefix {c : Cursor} {pre rest : List Nat} {n : Nat}
    (hlen : pre.length = n) (h : c.data.drop c.pos = pre ++ rest) :
    c.readZeroPad n = (pre, ⟨c.data, c.pos + n⟩) := by
  subst hlen
  simp [Cursor.readZeroPad, h, List.take_left]

theorem remaining_of_prefix {c : Cursor} {pre rest : List Nat}
    (h : c.data.drop c.pos = pre ++ rest) : pre.length ≤ c.remaining := by
  have hl : (c.data.drop c.pos).length = pre.length + rest.length := by
    rw [h]; simp
  simp only [Cursor.remaining]
  simp [List.length_drop] at hl
  omega

theorem parse_u1_of_prefix {c : Cursor} {b : Nat} {rest : List Nat}
    (h : c.data.drop c.pos = b :: rest) :
    parse_u1 c = (Except.ok b, ⟨c.data, c.pos + 1⟩) := by
  have := @Cursor.readZeroPad_of_prefix c [b] rest 1 rfl h
  simp [parse_u1, this, beVal]

theorem parse_u2_of_prefix {c : Cursor} {b1 b2 : Nat} {rest : List Nat}
    (h : c.data.drop c.pos = b1 :: b2 :: rest) :
    parse_u2 c = (Except.ok (b1 * 256 + b2), ⟨c.data, c.pos + 2⟩) := by
  have := @Cursor.readZeroPad_of_prefix c [b1, b2] rest 2 rfl h
  simp [parse_u2, this, beVal, List.foldl]

theorem parse_u4_of_prefix {c : Cursor} {b1 b2 b3 b4 : Nat} {rest : List Nat}
    (h : c.data.drop c.pos = b1 :: b2 :: b3 :: b4 :: rest) :
    parse_u4 c = (Except.ok (beVal [b1, b2, b3, b4]), ⟨c.data, c.pos + 4⟩) := by
  have := @Cursor.readZeroPad_of_prefix c [b1, b2, b3, b4] rest 4 rfl h
  simp [parse_u4, this]

theorem parse_u4_as_bytes_of_prefix {c : Cursor} {b1 b2 b3 b4 : Nat} {rest : List Nat}
    (h : c.data.drop c.pos = b1 :: b2 :: b3 :: b4 :: rest) :
    parse_u4_as_bytes c = (Except.ok [b1, b2, b3, b4], ⟨c.data, c.pos + 4⟩) := by
  have := @Cursor.readZeroPad_of_prefix c [b1, b2, b3, b4] rest 4 rfl h
  simp [parse_u4_as_bytes, this]

theorem parse_n_bytes_of_prefix {c : Cursor} {pre rest : List Nat} {n : Nat}
    (hlen : pre.length = n) (h : c.data.drop c.pos = pre ++ rest) :
    parse_n_bytes n c = (Except.ok pre, ⟨c.data, c.pos + n⟩) := by
  have hr := remaining_of_prefix h
  have := Cursor.readZeroPad_of_prefix hlen h
  rw [hlen] at hr
  simp [parse_n_bytes, this, Nat.not_lt.mpr hr]

theorem parseListN_length {α : Type} (p : ParseM α) :
    ∀ (n : Nat) (c c' : Cursor) (l : List α),
      parseListN p n c = (Except.ok l, c') → l.length = n := by
  intro n
  induction n with
  | zero =>
    intro c c' l h
    simp only [parseListN, ParseM.pure_eval] at h
    have : ([] : List α) = l := by
      have := congrArg Prod.fst h
      simpa using this
    simp [← this]
  | succ k ih =>
    intro c c' l h
    simp only [parseListN] at h
    rcases h1 : p c with ⟨r1, c1⟩
    cases r1 with
    | error e =>
      rw [ParseM.bind_of_error h1] at h
      simp at h
    | ok a =>
      rw [ParseM.bind_of_ok h1] at h
      rcases h2 : parseListN p k c1 with ⟨r2, c2⟩
      cases r2 with
      | error e =>
        rw [ParseM.bind_of_error h2] at h
        simp at h
      | ok as =>
        rw [ParseM.bind_of_ok h2] at h
        simp only [ParseM.pure_eval] at h
        have : (a :: as) = l := by
          have := congrArg Prod.fst h
          simpa using this
        rw [← this]
        simp [ih _ _ _ h2]

theorem drop_shift {data : List Nat} {pos n : Nat} {pre rest : List Nat}
    (hlen : pre.length = n) (h : data.drop pos = pre ++ rest) :
    data.drop (pos + n) = rest := by
  subst hlen
  rw [← List.drop_drop, h, List.drop_left]

theorem drop1_of_prefix {data : List Nat} {pos b1 : Nat} {rest : List Nat}
    (h : data.drop pos = b1 :: rest) : data.drop (pos + 1) = rest :=
  @drop_shift data pos 1 [b1] rest rfl h

theorem drop2_of_prefix {data : List Nat} {pos b1 b2 : Nat} {rest : List Nat}
    (h : data.drop pos = b1 :: b2 :: rest) : data.drop (pos + 2) = rest :=
  @drop_shift data pos 2 [b1, b2] rest rfl h

theorem drop4_of_prefix {data : List Nat} {pos b1 b2 b3 b4 : Nat} {rest : List Nat}
    (h : data.drop pos = b1 :: b2 :: b3 :: b4 :: rest) : data.drop (pos + 4) = rest :=
  @drop_shift data pos 4 [b1, b2, b3, b4] rest rfl h

theorem u2_roundtrip {n : Nat} (h : n < 2 ^ 16) : n / 256 % 256 * 256 + n % 256 = n := by
  omega

theorem beVal_u4bytes {n : Nat} (h : n < 2 ^ 32) : beVal (u4bytes n) = n := by
  simp only [u4bytes, beVal, List.foldl]
  omega

theorem parseListN_of {α : Type} (p : ParseM α) (P : α → Prop) (ser : α → List Nat)
    (hstep : ∀ a, P a → ∀ (c : Cursor) (rest : List Nat),
      c.data.drop c.pos = ser a ++ rest →
      p c = (Except.ok a, ⟨c.data, c.pos + (ser a).length⟩)) :
    ∀ (l : List α) (c : Cursor) (rest : List Nat), (∀ a ∈ l, P a) →
      c.data.drop c.pos = serList ser l ++ rest →
      parseListN p l.length c =
        (Except.ok l, ⟨c.data, c.pos + (serList ser l).length⟩) := by
  intro l
  induction l with
  | nil =>
    intro c rest _ _
    simp [parseListN, serList, ParseM.pure_eval]
  | cons a as ih =>
    intro c rest hP h
    have h' : c.data.drop c.pos = ser a ++ (serList ser as ++ rest) := by
      rw [h, serList, List.append_assoc]
    have h1 := hstep a (hP a (by simp)) c _ h'
    have hd : c.data.drop (c.pos + (ser a).length) = serList ser as ++ rest :=
      drop_shift rfl h'
    have h2 := ih ⟨c.data, c.pos + (ser a).length⟩ rest
      (fun x hx => hP x (by simp [hx])) hd
    simp only [List.length_cons, parseListN]
    rw [ParseM.bind_of_ok h1, ParseM.bind_of_ok h2]
    simp [ParseM.pure_eval, serList]
    omega

theorem exceptionParse_of_prefix {e : Exception} {c : Cursor} {rest : List Nat}
    (he : wfException e = true)
    (h : c.data.drop c.pos = serializeException e ++ rest) :
    Exception.parse c =
      (Except.ok e, ⟨c.data, c.pos + (serializeException e).length⟩) := by
  obtain ⟨s, en, ha, ct⟩ := e
  simp only [wfException, Bool.and_eq_true, decide_eq_true_eq] at he
  obtain ⟨⟨⟨h1, h2⟩, h3⟩, h4⟩ := he
  simp only [serializeException, u2bytes, List.cons_append, List.nil_append] at h
  have p1 := parse_u2_of_prefix h
  have d1 := drop2_of_prefix h
  have p2 := parse_u2_of_prefix (c := ⟨c.data, c.pos + 2⟩) d1
  have d2 := drop2_of_prefix d1
  have p3 := parse_u2_of_prefix (c := ⟨c.data, c.pos + 2 + 2⟩) d2
  have d3 := drop2_of_prefix d2
  have p4 := parse_u2_of_prefix (c := ⟨c.data, c.pos + 2 + 2 + 2⟩) d3
  simp only [Exception.parse]
  rw [ParseM.bind_of_ok p1, ParseM.bind_of_ok p2, ParseM.bind_of_ok p3,
    ParseM.bind_of_ok p4]
  simp [ParseM.pure_eval, u2_roundtrip h1, u2_roundtrip h2, u2_roundtrip h3,
    u2_roundtrip h4, serializeException, u2bytes]

theorem lineNumberParse_of_prefix {l : LineNumber} {c : Cursor} {rest : List Nat}
    (hl : wfLineNumber l = true)
    (h : c.data.drop c.pos = serializeLineNumber l ++ rest) :
    LineNumber.parse c =
      (Except.ok l, ⟨c.data, c.pos + (serializeLineNumber l).length⟩) := by
  obtain ⟨s, ln⟩ := l
  simp only [wfLineNumber, Bool.and_eq_true, decide_eq_true_eq] at hl
  obtain ⟨h1, h2⟩ := hl
  simp only [serializeLineNumber, u2bytes, List.cons_append, List.nil_append] at h
  have p1 := parse_u2_of_prefix h
  have d1 := drop2_of_prefix h
  have p2 := parse_u2_of_prefix (c := ⟨c.data, c.pos + 2⟩) d1
  simp only [LineNumber.parse]
  rw [ParseM.bind_of_ok p1, ParseM.bind_of_ok p2]
  simp [ParseM.pure_eval, u2_roundtrip h1, u2_roundtrip h2, serializeLineNumber, u2bytes]

theorem exceptBind_ok {α β : Type} (a : α) (f : α → Except Err β) :
    (Except.ok a >>= f : Except Err β) = f a := rfl

/-! ### Claim C2: atomicity of the byte-reader primitives -/

/-- C2 counterexample: `parse_u2` on a one-byte source (fewer than the two
requested bytes) succeeds with the zero-padded value `0xAB00` instead of
reporting a short read, refuting the claim that every multi-byte read either
obtains all requested bytes or fails. -/
theorem claim2_counterexample :
    Cursor.remaining ⟨[0xAB], 0⟩ = 1 ∧
    parse_u2 ⟨[0xAB], 0⟩ = (Except.ok 0xAB00, ⟨[0xAB], 1⟩) := by
  constructor <;> rfl

/-- C2 (amended): only `parse_n_bytes` is atomic — it returns the requested
bytes exactly when they are all available and an explicit short-read error
otherwise; every other multi-byte primitive (`parse_u2`, `parse_u4`,
`parse_u8_as_i64`, `parse_u8_as_f64`, the `*_as_bytes` variants) always
succeeds, silently zero-padding on a short read, and `parse_utf8` never
reports a short read (it can only fail on invalid UTF-8). -/
theorem claim2_amended :
    (∀ (n : Nat) (c : Cursor), n ≤ c.remaining →
      parse_n_bytes n c = (Except.ok ((c.data.drop c.pos).take n), ⟨c.data, c.pos + n⟩)) ∧
    (∀ (n : Nat) (c : Cursor), c.remaining < n →
      (parse_n_bytes n c).1 = Except.error Err.shortRead) ∧
    (∀ c : Cursor, ∃ v c', parse_u2 c = (Except.ok v, c')) ∧
    (∀ c : Cursor, ∃ v c', parse_u4 c = (Except.ok v, c')) ∧
    (∀ c : Cursor, ∃ v c', parse_u8_as_i64 c = (Except.ok v, c')) ∧
    (∀ c : Cursor, ∃ v c', parse_u8_as_f64 c = (Except.ok v, c')) ∧
    (∀ c : Cursor, ∃ v c', parse_u1_as_bytes c = (Except.ok v, c')) ∧
    (∀ c : Cursor, ∃ v c', parse_u2_as_bytes c = (Except.ok v, c')) ∧
    (∀ c : Cursor, ∃ v c', parse_u4_as_bytes c = (Except.ok v, c')) ∧
    (∀ (len : Nat) (c : Cursor),
      (∃ v c', parse_utf8 len c = (Except.ok v, c')) ∨
        (parse_utf8 len c).1 = Except.error Err.invalidUtf8) := by
  refine ⟨?_, ?_, ?_, ?_, ?_, ?_, ?_, ?_, ?_, ?_⟩
  · intro n c h
    have hlen : ((c.data.drop c.pos).take n).length = n := by
      simp only [Cursor.remaining] at h
      simp [List.length_take, List.length_drop]
      omega
    simp [parse_n_bytes, Cursor.readZeroPad, Nat.not_lt.mpr h, hlen]
  · intro n c h
    simp [parse_n_bytes, Cursor.readZeroPad, h]
  · intro c; exact ⟨_, _, rfl⟩
  · intro c; exact ⟨_, _, rfl⟩
  · intro c; exact ⟨_, _, rfl⟩
  · intro c; exact ⟨_, _, rfl⟩
  · intro c; exact ⟨_, _, rfl⟩
  · intro c; exact ⟨_, _, rfl⟩
  · intro c; exact ⟨_, _, rfl⟩
  · intro len c
    rcases hd : c.readZeroPad len with ⟨buf, c'⟩
    by_cases hv : utf8Valid buf = true
    · exact Or.inl ⟨buf, c', by simp [parse_utf8, hd, hv]⟩
    · exact Or.inr (by simp [parse_utf8, hd, hv])

/-- C2 witness: the amended theorem applied at concrete inputs — a full
2-byte read through `parse_n_bytes` and a short one that errors. -/
theorem claim2_witness :
    parse_n_bytes 2 ⟨[5, 6, 7], 0⟩ = (Except.ok [5, 6], ⟨[5, 6, 7], 2⟩) ∧
    (parse_n_bytes 2 ⟨[5], 0⟩).1 = Except.error Err.shortRead := by
  constructor
  · have := claim2_amended.1 2 ⟨[5, 6, 7], 0⟩ (by decide)
    simpa using this
  · exact claim2_amended.2.1 2 ⟨[5], 0⟩ (by decide)

/-! ### Claim C5: the `resolve_name_and_type` accessor -/

/-- C5: `get_name_and_type` returns the (name, descriptor) text pair when
the index references a `NameAndType` entry whose two indirections resolve to
`Utf8`, and fails with a type mismatch when the index references an entry of
any other variant. -/
theorem claim5_resolve_name_and_type :
    (∀ (pool : List ConstantPoolInfo) (index n d : Nat) (nv dv : List Nat),
      get_value pool index = Except.ok (ConstantPoolInfo.NameAndType n d) →
      get_utf8_from_index pool n = Except.ok nv →
      get_utf8_from_index pool d = Except.ok dv →
      get_name_and_type pool index = Except.ok (nv, dv)) ∧
    (∀ (pool : List ConstantPoolInfo) (index : Nat) (v : ConstantPoolInfo),
      get_value pool index = Except.ok v →
      (∀ n d, v ≠ ConstantPoolInfo.NameAndType n d) →
      get_name_and_type pool index = Except.error Err.constantPoolTypeMismatch) := by
  constructor
  · intro pool index n d nv dv h1 h2 h3
    simp [get_name_and_type, h1, h2, h3, exceptBind_ok]
  · intro pool index v h1 hne
    cases v
    case NameAndType n d => exact absurd rfl (hne n d)
    all_goals simp [get_name_and_type, h1, exceptBind_ok]

/-- C5 witness: the accessor applied to the hello-world pool — position 5
is a `NameAndType` resolving to (`out`, `Ljava/io/PrintStream;`) and
position 2 is a `Class`, which is a type mismatch. -/
theorem claim5_witness :
    get_name_and_type helloPool 5 =
      Except.ok (asciiBytes "out", asciiBytes "Ljava/io/PrintStream;") ∧
    get_name_and_type helloPool 2 = Except.error Err.constantPoolTypeMismatch := by
  constructor
  · exact claim5_resolve_name_and_type.1 helloPool 5 3 4 _ _ rfl rfl rfl
  · exact claim5_resolve_name_and_type.2 helloPool 2 (ConstantPoolInfo.Class 1) rfl
      (by intro n d h; cases h)

/-! ### Claim C6: constant-pool indexing and resolver failures -/

/-- Test used to state C6: whether an entry is a `Class` variant. -/
def ConstantPoolInfo.isClass : ConstantPoolInfo → Bool
  | ConstantPoolInfo.Class _ => true
  | _ => false

/-- Test used to state C6: whether an entry is a `Utf8` variant. -/
def ConstantPoolInfo.isUtf8 : ConstantPoolInfo → Bool
  | ConstantPoolInfo.Utf8 _ => true
  | _ => false

/-- C6: index 0 always fails out-of-range, any index beyond the pool size
fails out-of-range, pool position 1 is retrieved by index 1; and the
`Class`/`Utf8` resolvers fail with a type mismatch whenever the target
resolves to an entry of a different variant. -/
theorem claim6_pool_indexing :
    (∀ pool : List ConstantPoolInfo,
      get_value pool 0 = Except.error (Err.constantPoolIndexOutOfRange 0)) ∧
    (∀ (pool : List ConstantPoolInfo) (i : Nat), pool.length < i →
      get_value pool i = Except.error (Err.constantPoolIndexOutOfRange i)) ∧
    (∀ (e : ConstantPoolInfo) (rest : List ConstantPoolInfo),
      get_value (e :: rest) 1 = Except.ok e) ∧
    (∀ (pool : List ConstantPoolInfo) (i : Nat) (v : ConstantPoolInfo),
      get_value pool i = Except.ok v → v.isClass = false →
      get_class_name_from_index pool i = Except.error Err.constantPoolTypeMismatch) ∧
    (∀ (pool : List ConstantPoolInfo) (i ni : Nat) (v : ConstantPoolInfo),
      get_value pool i = Except.ok (ConstantPoolInfo.Class ni) →
      get_value pool ni = Except.ok v → v.isUtf8 = false →
      get_class_name_from_index pool i = Except.error Err.constantPoolTypeMismatch) ∧
    (∀ (pool : List ConstantPoolInfo) (i : Nat) (v : ConstantPoolInfo),
      get_value pool i = Except.ok v → v.isUtf8 = false →
      get_utf8_from_index pool i = Except.error Err.constantPoolTypeMismatch) := by
  refine ⟨?_, ?_, ?_, ?_, ?_, ?_⟩
  · intro pool; rfl
  · intro pool i h
    match i, h with
    | j + 1, h =>
      have : pool[j]? = none := by
        rw [List.getElem?_eq_none]
        omega
      simp [get_value, this]
  · intro e rest; simp [get_value]
  · intro pool i v h1 h2
    cases v <;> simp_all [get_class_name_from_index, exceptBind_ok,
      ConstantPoolInfo.isClass]
  · intro pool i ni v h1 h2 h3
    cases v <;> simp_all [get_class_name_from_index, exceptBind_ok,
      ConstantPoolInfo.isUtf8]
  · intro pool i v h1 h2
    cases v <;> simp_all [get_utf8_from_index, exceptBind_ok,
      ConstantPoolInfo.isUtf8]

/-- C6 witness: the indexing conventions and mismatch failures at the
concrete hello-world pool. -/
theorem claim6_witness :
    get_value helloPool 0 = Except.error (Err.constantPoolIndexOutOfRange 0) ∧
    get_value helloPool 13 = Except.error (Err.constantPoolIndexOutOfRange 13) ∧
    get_value helloPool 1 = Except.ok (ConstantPoolInfo.Utf8 (asciiBytes "java/io/PrintStream")) ∧
    get_class_name_from_index helloPool 5 = Except.error Err.constantPoolTypeMismatch ∧
    get_utf8_from_index helloPool 2 = Except.error Err.constantPoolTypeMismatch := by
  refine ⟨claim6_pool_indexing.1 helloPool, ?_, ?_, ?_, ?_⟩
  · exact claim6_pool_indexing.2.1 helloPool 13 (by decide)
  · exact claim6_pool_indexing.2.2.1 _ _
  · exact claim6_pool_indexing.2.2.2.1 helloPool 5 (ConstantPoolInfo.NameAndType 3 4) rfl rfl
  · exact claim6_pool_indexing.2.2.2.2.2 helloPool 2 (ConstantPoolInfo.Class 1) rfl rfl

/-! ### Claim C10: empty instruction sequence underflows the loop bound -/

/-- C10: when the entry-point method's `Code` attribute has an empty
instruction sequence, `run_main` does not terminate normally: the loop bound
`len - 1` wraps around for `len = 0`, the loop body reads a zero-padded
opcode byte `0` from the empty stream, and the run aborts with an
unimplemented-opcode failure, having produced no output. -/
theorem claim10_empty_code_aborts (cf : ClassFile) (m : MethodInfo) (a : AttributeInfo)
    (ms ml : Nat) (et : List Exception) (ats : List AttributeInfo)
    (hm : cf.get_main_method = some m)
    (hc : m.get_code = some a)
    (ha : a.attr = AttributeKind.Code ms ml [] et ats) :
    run_main cf = ([], Except.error (Err.unimplementedOpcode 0)) := by
  simp only [run_main, hm, hc, ha, List.length_nil]
  have hb : 0 < usizeSub1 0 := by decide
  rw [runLoop]
  simp [hb, parse_u1, Cursor.readZeroPad, beVal,
    OpCodeType.getstatic, OpCodeType.ldc, OpCodeType.invokevirtual]

/-- C10 witness: the theorem applied to the concrete class file whose
`main` has an empty code array. -/
theorem claim10_witness :
    run_main emptyCodeClass = ([], Except.error (Err.unimplementedOpcode 0)) :=
  claim10_empty_code_aborts emptyCodeClass (mainWithCode []) _ 2 1 [] [] rfl rfl rfl

/-! ### Dispatch-loop step lemmas (used by the end-to-end claim) -/

theorem runLoop_getstatic_step {pool : List ConstantPoolInfo} {bound fuel : Nat}
    {c : Cursor} {stack : List OperandStackEntry} {out : List (List Nat)}
    {b1 b2 : Nat} {rest : List Nat} {ci ni : Nat} {fc : List Nat}
    {nt : List Nat × List Nat}
    (hpos : c.pos < bound)
    (hb : c.data.drop c.pos = OpCodeType.getstatic :: b1 :: b2 :: rest)
    (hfr : get_value pool (b1 * 256 + b2) = Except.ok (ConstantPoolInfo.Fieldref ci ni))
    (hcn : get_class_name_from_index pool ci = Except.ok fc)
    (hnt : get_name_and_type pool ni = Except.ok nt) :
    runLoop pool bound (fuel + 1) c stack out =
      runLoop pool bound fuel ⟨c.data, c.pos + 1 + 2⟩
        (OperandStackEntry.ClassInstance nt.2 :: stack) out := by
  have p1 := parse_u1_of_prefix hb
  have d1 := drop1_of_prefix hb
  have p2 := parse_u2_of_prefix (c := ⟨c.data, c.pos + 1⟩) d1
  rw [runLoop, if_pos hpos]
  simp only [p1, p2, hfr, hcn, hnt]
  simp

theorem runLoop_ldc_step {pool : List ConstantPoolInfo} {bound fuel : Nat}
    {c : Cursor} {stack : List OperandStackEntry} {out : List (List Nat)}
    {s1 : Nat} {rest : List Nat} {sti : Nat} {s : List Nat}
    (hpos : c.pos < bound)
    (hb : c.data.drop c.pos = OpCodeType.ldc :: s1 :: rest)
    (hsv : get_value pool s1 = Except.ok (ConstantPoolInfo.String sti))
    (hu : get_utf8_from_index pool sti = Except.ok s) :
    runLoop pool bound (fuel + 1) c stack out =
      runLoop pool bound fuel ⟨c.data, c.pos + 1 + 1⟩
        (OperandStackEntry.String s :: stack) out := by
  have p1 := parse_u1_of_prefix hb
  have d1 := drop1_of_prefix hb
  have p2 := parse_u1_of_prefix (c := ⟨c.data, c.pos + 1⟩) d1
  rw [runLoop, if_pos hpos]
  simp only [p1, p2, hsv, hu]
  simp [OpCodeType.ldc, OpCodeType.getstatic]

theorem runLoop_println_step {pool : List ConstantPoolInfo} {bound fuel : Nat}
    {c : Cursor} {stack : List OperandStackEntry} {out : List (List Nat)}
    {b1 b2 : Nat} {rest : List Nat} {ci ni : Nat} {str : List Nat}
    (hpos : c.pos < bound)
    (hb : c.data.drop c.pos = OpCodeType.invokevirtual :: b1 :: b2 :: rest)
    (hmr : get_value pool (b1 * 256 + b2) = Except.ok (ConstantPoolInfo.Methodref ci ni))
    (hcn : get_class_name_from_index pool ci = Except.ok (asciiBytes "java/io/PrintStream"))
    (hnt : get_name_and_type pool ni =
      Except.ok (asciiBytes "println", asciiBytes "(Ljava/lang/String;)V")) :
    runLoop pool bound (fuel + 1) c (OperandStackEntry.String str :: stack) out =
      runLoop pool bound fuel ⟨c.data, c.pos + 1 + 2⟩ (stack.drop 1) (out ++ [str]) := by
  have p1 := parse_u1_of_prefix hb
  have d1 := drop1_of_prefix hb
  have p2 := parse_u2_of_prefix (c := ⟨c.data, c.pos + 1⟩) d1
  rw [runLoop, if_pos hpos]
  simp only [p1, p2, hmr, hcn, hnt]
  simp [OpCodeType.invokevirtual, OpCodeType.getstatic, OpCodeType.ldc]

/-! ### Claim C3: non-println `invokevirtual` targets -/

/-- C3 counterexample: in `fooClass` the only instruction is an
`invokevirtual` whose `Methodref` resolves to (`Foo`, `bar`, `()V`) — not
the println binding — yet the run terminates normally with no output instead
of failing with an unimplemented-native-method error. -/
theorem claim3_counterexample : run_main fooClass = ([], Except.ok ()) := rfl

/-- C3 (amended): an `invokevirtual` whose resolved triple differs from
(`java/io/PrintStream`, `println`, `(Ljava/lang/String;)V`) is silently
ignored — the `if` in the source has no `else` — and execution continues at
the next instruction with the operand stack and the output unchanged. -/
theorem claim3_amended (pool : List ConstantPoolInfo) (bound fuel : Nat) (c : Cursor)
    (stack : List OperandStackEntry) (out : List (List Nat)) (b1 b2 : Nat)
    (rest : List Nat) (ci ni : Nat) (cls nm d : List Nat)
    (hpos : c.pos < bound)
    (hb : c.data.drop c.pos = OpCodeType.invokevirtual :: b1 :: b2 :: rest)
    (hmr : get_value pool (b1 * 256 + b2) = Except.ok (ConstantPoolInfo.Methodref ci ni))
    (hcn : get_class_name_from_index pool ci = Except.ok cls)
    (hnt : get_name_and_type pool ni = Except.ok (nm, d))
    (hne : ¬(cls = asciiBytes "java/io/PrintStream" ∧ nm = asciiBytes "println" ∧
      d = asciiBytes "(Ljava/lang/String;)V")) :
    runLoop pool bound (fuel + 1) c stack out =
      runLoop pool bound fuel ⟨c.data, c.pos + 1 + 2⟩ stack out := by
  have p1 := parse_u1_of_prefix hb
  have d1 := drop1_of_prefix hb
  have p2 := parse_u2_of_prefix (c := ⟨c.data, c.pos + 1⟩) d1
  rw [runLoop, if_pos hpos]
  simp only [p1, p2, hmr, hcn, hnt]
  simp [OpCodeType.invokevirtual, OpCodeType.getstatic, OpCodeType.ldc, hne]

/-- C3 witness: the amended theorem applied to the concrete `fooPool`
scenario — the skipped call leaves stack and output untouched. -/
theorem claim3_witness :
    runLoop fooPool 2 4 ⟨[0xb6, 0, 6], 0⟩ [] [] =
      runLoop fooPool 2 3 ⟨[0xb6, 0, 6], 0 + 1 + 2⟩ [] [] :=
  claim3_amended fooPool 2 3 ⟨[0xb6, 0, 6], 0⟩ [] [] 0 6 [] 2 5
    (asciiBytes "Foo") (asciiBytes "bar") (asciiBytes "()V")
    (by decide) rfl rfl rfl rfl (by decide)

/-! ### Claim C4: unknown opcode bytes -/

/-- C4 counterexample: `unknownOpClass` has the single unknown opcode byte
`0x03` as the final byte of its code; the loop bound `len - 1` means the
byte is never dispatched and the run terminates normally, instead of failing
with an unimplemented-opcode error at that position. -/
theorem claim4_counterexample : run_main unknownOpClass = ([], Except.ok ()) := rfl

/-- C4 (amended): a byte outside {getstatic, ldc, invokevirtual} read as an
opcode at a position the loop still dispatches (position < length − 1) fails
the run with `UnimplementedOpcode` for that byte, the output being exactly
the lines already emitted; but a trailing byte at position length − 1 is
never dispatched, because the loop exits there and the run ends normally. -/
theorem claim4_amended :
    (∀ (pool : List ConstantPoolInfo) (bound fuel : Nat) (c : Cursor)
      (stack : List OperandStackEntry) (out : List (List Nat)) (b : Nat) (rest : List Nat),
      c.pos < bound → c.data.drop c.pos = b :: rest →
      b ≠ OpCodeType.getstatic → b ≠ OpCodeType.ldc → b ≠ OpCodeType.invokevirtual →
      runLoop pool bound (fuel + 1) c stack out =
        (out, Except.error (Err.unimplementedOpcode b))) ∧
    (∀ (pool : List ConstantPoolInfo) (bound fuel : Nat) (c : Cursor)
      (stack : List OperandStackEntry) (out : List (List Nat)), bound ≤ c.pos →
      runLoop pool bound fuel c stack out = (out, Except.ok ())) := by
  constructor
  · intro pool bound fuel c stack out b rest hpos hb h1 h2 h3
    have p1 := parse_u1_of_prefix hb
    rw [runLoop, if_pos hpos]
    simp only [p1]
    simp [h1, h2, h3]
  · intro pool bound fuel c stack out h
    rw [runLoop.eq_def]
    simp [Nat.not_lt.mpr h]

/-- C4 witness: the amended theorem at concrete inputs — the unknown byte
`0x03` one position before the end fails the run, and a cursor already at
the bound exits normally. -/
theorem claim4_witness :
    runLoop [] 1 9 ⟨[0x03, 0x00], 0⟩ [] [] =
      ([], Except.error (Err.unimplementedOpcode 0x03)) ∧
    runLoop [] 1 9 ⟨[0x03, 0x00], 1⟩ [] [] = ([], Except.ok ()) := by
  constructor
  · exact claim4_amended.1 [] 1 8 ⟨[0x03, 0x00], 0⟩ [] [] 0x03 [0x00]
      (by decide) rfl (by decide) (by decide) (by decide)
  · exact claim4_amended.2 [] 1 9 ⟨[0x03, 0x00], 1⟩ [] [] (by decide)

/-! ### Claim C1: the hello-world end-to-end scenario -/

/-- C1: for any parsed class file whose constant pool resolves a `Fieldref`
(owning class `java/io/PrintStream`, name/type `out` /
`Ljava/io/PrintStream;`), a `Methodref` (owning class `java/io/PrintStream`,
name/type `println` / `(Ljava/lang/String;)V`) and a `String` entry whose
`string_index` reaches the `Utf8` text `Hello, World!`, and whose `main`
method's `Code` attribute holds exactly `getstatic <fieldref>; ldc
<string>; invokevirtual <methodref>`, `run_main` terminates normally having
emitted exactly the one line `Hello, World!`. -/
theorem claim1_hello_world (cf : ClassFile) (m : MethodInfo) (a : AttributeInfo)
    (ms ml : Nat) (et : List Exception) (ats : List AttributeInfo)
    (f1 f2 s1 m1 m2 : Nat) (fci fni sti mci mni : Nat)
    (hm : cf.get_main_method = some m)
    (hc : m.get_code = some a)
    (ha : a.attr = AttributeKind.Code ms ml
      [OpCodeType.getstatic, f1, f2, OpCodeType.ldc, s1,
       OpCodeType.invokevirtual, m1, m2] et ats)
    (hfr : get_value cf.constant_pool (f1 * 256 + f2) =
      Except.ok (ConstantPoolInfo.Fieldref fci fni))
    (hfc : get_class_name_from_index cf.constant_pool fci =
      Except.ok (asciiBytes "java/io/PrintStream"))
    (hfnt : get_name_and_type cf.constant_pool fni =
      Except.ok (asciiBytes "out", asciiBytes "Ljava/io/PrintStream;"))
    (hsv : get_value cf.constant_pool s1 = Except.ok (ConstantPoolInfo.String sti))
    (hsu : get_utf8_from_index cf.constant_pool sti =
      Except.ok (asciiBytes "Hello, World!"))
    (hmr : get_value cf.constant_pool (m1 * 256 + m2) =
      Except.ok (ConstantPoolInfo.Methodref mci mni))
    (hmc : get_class_name_from_index cf.constant_pool mci =
      Except.ok (asciiBytes "java/io/PrintStream"))
    (hmnt : get_name_and_type cf.constant_pool mni =
      Except.ok (asciiBytes "println", asciiBytes "(Ljava/lang/String;)V")) :
    run_main cf = ([asciiBytes "Hello, World!"], Except.ok ()) := by
  simp only [run_main, hm, hc, ha]
  have hb7 : usizeSub1 8 = 7 := by norm_num [usizeSub1]
  have e1 : runLoop cf.constant_pool 7 9
      ⟨[OpCodeType.getstatic, f1, f2, OpCodeType.ldc, s1,
        OpCodeType.invokevirtual, m1, m2], 0⟩ [] [] =
      runLoop cf.constant_pool 7 8
        ⟨[OpCodeType.getstatic, f1, f2, OpCodeType.ldc, s1,
          OpCodeType.invokevirtual, m1, m2], 3⟩
        [OperandStackEntry.ClassInstance (asciiBytes "Ljava/io/PrintStream;")] [] :=
    @runLoop_getstatic_step cf.constant_pool 7 8
      ⟨[OpCodeType.getstatic, f1, f2, OpCodeType.ldc, s1,
        OpCodeType.invokevirtual, m1, m2], 0⟩ [] [] f1 f2
      [OpCodeType.ldc, s1, OpCodeType.invokevirtual, m1, m2] fci fni
      (asciiBytes "java/io/PrintStream")
      (asciiBytes "out", asciiBytes "Ljava/io/PrintStream;")
      (by norm_num) rfl hfr hfc hfnt
  have e2 : runLoop cf.constant_pool 7 8
      ⟨[OpCodeType.getstatic, f1, f2, OpCodeType.ldc, s1,
        OpCodeType.invokevirtual, m1, m2], 3⟩
      [OperandStackEntry.ClassInstance (asciiBytes "Ljava/io/PrintStream;")] [] =
      runLoop cf.constant_pool 7 7
        ⟨[OpCodeType.getstatic, f1, f2, OpCodeType.ldc, s1,
          OpCodeType.invokevirtual, m1, m2], 5⟩
        [OperandStackEntry.String (asciiBytes "Hello, World!"),
         OperandStackEntry.ClassInstance (asciiBytes "Ljava/io/PrintStream;")] [] :=
    @runLoop_ldc_step cf.constant_pool 7 7
      ⟨[OpCodeType.getstatic, f1, f2, OpCodeType.ldc, s1,
        OpCodeType.invokevirtual, m1, m2], 3⟩
      [OperandStackEntry.ClassInstance (asciiBytes "Ljava/io/PrintStream;")] [] s1
      [OpCodeType.invokevirtual, m1, m2] sti (asciiBytes "Hello, World!")
      (by norm_num) rfl hsv hsu
  have e3 : runLoop cf.constant_pool 7 7
      ⟨[OpCodeType.getstatic, f1, f2, OpCodeType.ldc, s1,
        OpCodeType.invokevirtual, m1, m2], 5⟩
      [OperandStackEntry.String (asciiBytes "Hello, World!"),
       OperandStackEntry.ClassInstance (asciiBytes "Ljava/io/PrintStream;")] [] =
      runLoop cf.constant_pool 7 6
        ⟨[OpCodeType.getstatic, f1, f2, OpCodeType.ldc, s1,
          OpCodeType.invokevirtual, m1, m2], 8⟩
        [] [asciiBytes "Hello, World!"] :=
    @runLoop_println_step cf.constant_pool 7 6
      ⟨[OpCodeType.getstatic, f1, f2, OpCodeType.ldc, s1,
        OpCodeType.invokevirtual, m1, m2], 5⟩
      [OperandStackEntry.ClassInstance (asciiBytes "Ljava/io/PrintStream;")] []
      m1 m2 [] mci mni (asciiBytes "Hello, World!")
      (by norm_num) rfl hmr hmc hmnt
  have e4 : runLoop cf.constant_pool 7 6
      ⟨[OpCodeType.getstatic, f1, f2, OpCodeType.ldc, s1,
        OpCodeType.invokevirtual, m1, m2], 8⟩
      [] [asciiBytes "Hello, World!"] =
      ([asciiBytes "Hello, World!"], Except.ok ()) := by
    rw [runLoop.eq_def]
    norm_num
  simp only [List.length_cons, List.length_nil]
  norm_num [hb7]
  rw [e1, e2, e3, e4]

/-- C1 witness: the theorem applied to the concrete `helloClass`. -/
theorem claim1_witness :
    run_main helloClass = ([asciiBytes "Hello, World!"], Except.ok ()) :=
  claim1_hello_world helloClass
    (mainWithCode [0xb2, 0, 6, 0x12, 8, 0xb6, 0, 12]) _ 2 1 [] []
    0 6 8 0 12 2 5 7 2 11 rfl rfl rfl rfl rfl rfl rfl rfl rfl rfl rfl

/-! ### Claim C9: nonzero interface/field counts abort the parse -/

/-- C9: whenever the class-file parse reaches the `interfaces_count` field
and reads a nonzero value, it fails with the unsupported-feature error with
the cursor exactly at the end of the count field — no interface bytes are
consumed; likewise for a nonzero `fields_count` after a zero
`interfaces_count`. -/
theorem claim9_unsupported_features (c w1 w2 w3 w4 w5 w6 w7 w8 w9 : Cursor)
    (fuel : Nat) (magic : List Nat) (minor major cnt flags thisc superc ic : Nat)
    (pool : List ConstantPoolInfo)
    (h1 : parse_u4_as_bytes c = (Except.ok magic, w1))
    (h2 : parse_u2 w1 = (Except.ok minor, w2))
    (h3 : parse_u2 w2 = (Except.ok major, w3))
    (h4 : parse_u2 w3 = (Except.ok cnt, w4))
    (h5 : parseListN ConstantPoolInfo.parse (cnt - 1) w4 = (Except.ok pool, w5))
    (h6 : parse_u2 w5 = (Except.ok flags, w6))
    (h7 : parse_u2 w6 = (Except.ok thisc, w7))
    (h8 : parse_u2 w7 = (Except.ok superc, w8))
    (h9 : parse_u2 w8 = (Except.ok ic, w9)) :
    (ic ≠ 0 →
      ClassFile.parse fuel c = (Except.error (Err.unsupportedFeature "interfaces"), w9)) ∧
    (∀ (w10 : Cursor) (fc : Nat), ic = 0 → parse_u2 w9 = (Except.ok fc, w10) → fc ≠ 0 →
      ClassFile.parse fuel c = (Except.error (Err.unsupportedFeature "fields"), w10)) := by
  constructor
  · intro hic
    simp only [ClassFile.parse]
    rw [ParseM.bind_of_ok h1, ParseM.bind_of_ok h2, ParseM.bind_of_ok h3,
      ParseM.bind_of_ok h4, ParseM.bind_of_ok h5, ParseM.bind_of_ok h6,
      ParseM.bind_of_ok h7, ParseM.bind_of_ok h8, ParseM.bind_of_ok h9]
    simp [hic, pthrow]
  · intro w10 fc hic hfc hfcne
    simp only [ClassFile.parse]
    rw [ParseM.bind_of_ok h1, ParseM.bind_of_ok h2, ParseM.bind_of_ok h3,
      ParseM.bind_of_ok h4, ParseM.bind_of_ok h5, ParseM.bind_of_ok h6,
      ParseM.bind_of_ok h7, ParseM.bind_of_ok h8, ParseM.bind_of_ok h9]
    simp only [hic]
    norm_num
    rw [ParseM.bind_of_ok hfc]
    simp [hfcne, pthrow]

/-- C9 witness: the theorem applied to the two concrete byte streams; in
each case the cursor stops right after the offending count field (position
18 resp. 20). -/
theorem claim9_witness :
    ClassFile.parse 3 ⟨interfaceBytes, 0⟩ =
      (Except.error (Err.unsupportedFeature "interfaces"), ⟨interfaceBytes, 18⟩) ∧
    ClassFile.parse 3 ⟨fieldBytes, 0⟩ =
      (Except.error (Err.unsupportedFeature "fields"), ⟨fieldBytes, 20⟩) := by
  constructor
  · exact (claim9_unsupported_features ⟨interfaceBytes, 0⟩ _ _ _ _ _ _ _ _
      ⟨interfaceBytes, 18⟩ 3 [0xCA, 0xFE, 0xBA, 0xBE] 0 52 1 0x21 0 0 1 []
      rfl rfl rfl rfl rfl rfl rfl rfl rfl).1 (by decide)
  · exact (claim9_unsupported_features ⟨fieldBytes, 0⟩ _ _ _ _ _ _ _ _
      ⟨fieldBytes, 18⟩ 3 [0xCA, 0xFE, 0xBA, 0xBE] 0 52 1 0x21 0 0 0 []
      rfl rfl rfl rfl rfl rfl rfl rfl rfl).2 ⟨fieldBytes, 20⟩ 1 rfl rfl (by decide)

/-! ### Further byte-primitive prefix lemmas (for the constant-pool claim) -/

theorem parse_u4_as_i32_of_prefix {c : Cursor} {b1 b2 b3 b4 : Nat} {rest : List Nat}
    (h : c.data.drop c.pos = b1 :: b2 :: b3 :: b4 :: rest) :
    parse_u4_as_i32 c =
      (Except.ok (toInt32 (beVal [b1, b2, b3, b4])), ⟨c.data, c.pos + 4⟩) := by
  have := @Cursor.readZeroPad_of_prefix c [b1, b2, b3, b4] rest 4 rfl h
  simp [parse_u4_as_i32, this]

theorem parse_u4_as_f32_of_prefix {c : Cursor} {b1 b2 b3 b4 : Nat} {rest : List Nat}
    (h : c.data.drop c.pos = b1 :: b2 :: b3 :: b4 :: rest) :
    parse_u4_as_f32 c = (Except.ok (beVal [b1, b2, b3, b4]), ⟨c.data, c.pos + 4⟩) := by
  have := @Cursor.readZeroPad_of_prefix c [b1, b2, b3, b4] rest 4 rfl h
  simp [parse_u4_as_f32, this]

theorem parse_u8_as_i64_of_prefix {c : Cursor} {b1 b2 b3 b4 b5 b6 b7 b8 : Nat}
    {rest : List Nat}
    (h : c.data.drop c.pos = b1 :: b2 :: b3 :: b4 :: b5 :: b6 :: b7 :: b8 :: rest) :
    parse_u8_as_i64 c =
      (Except.ok (toInt64 (beVal [b1, b2, b3, b4, b5, b6, b7, b8])), ⟨c.data, c.pos + 8⟩) := by
  have := @Cursor.readZeroPad_of_prefix c [b1, b2, b3, b4, b5, b6, b7, b8] rest 8 rfl h
  simp [parse_u8_as_i64, this]

theorem parse_u8_as_f64_of_prefix {c : Cursor} {b1 b2 b3 b4 b5 b6 b7 b8 : Nat}
    {rest : List Nat}
    (h : c.data.drop c.pos = b1 :: b2 :: b3 :: b4 :: b5 :: b6 :: b7 :: b8 :: rest) :
    parse_u8_as_f64 c =
      (Except.ok (beVal [b1, b2, b3, b4, b5, b6, b7, b8]), ⟨c.data, c.pos + 8⟩) := by
  have := @Cursor.readZeroPad_of_prefix c [b1, b2, b3, b4, b5, b6, b7, b8] rest 8 rfl h
  simp [parse_u8_as_f64, this]

theorem parse_utf8_of_prefix {c : Cursor} {pre rest : List Nat} {len : Nat}
    (hlen : pre.length = len) (hv : utf8Valid pre = true)
    (h : c.data.drop c.pos = pre ++ rest) :
    parse_utf8 len c = (Except.ok pre, ⟨c.data, c.pos + len⟩) := by
  have := Cursor.readZeroPad_of_prefix hlen h
  simp [parse_utf8, this, hv]

/-! ### Claim C7: constant-pool entry parsing -/

/-- C7 counterexample: the valid tag `Class` (7) at the very end of the
stream parses "successfully" as `Class 0` while consuming zero payload bytes
instead of the two the format prescribes — the fixed-width payload reads
zero-pad on truncated input, refuting exact-width consumption as stated. -/
theorem claim7_counterexample :
    ConstantPoolInfo.parse ⟨[7], 0⟩ =
      (Except.ok (ConstantPoolInfo.Class 0), ⟨[7], 1⟩) := rfl

/-- C7 (amended): the pool loop parses exactly `count − 1` entries, each
entry — `Long` and `Double` included — occupying exactly one pool position;
for every valid tag byte, when the stream holds at least the tag's payload
(and, for `Utf8`, the payload is valid UTF-8, since `String::from_utf8` is
`.expect`-ed), the entry parser consumes exactly the tag byte plus that
payload width and produces the matching variant; on a truncated stream the
fixed-width payload reads zero-pad instead (counterexample); for any other
tag byte it fails with the malformed-tag error having consumed exactly the
tag byte. -/
theorem claim7_amended :
    (∀ (n : Nat) (c c' : Cursor) (l : List ConstantPoolInfo),
      parseListN ConstantPoolInfo.parse n c = (Except.ok l, c') → l.length = n) ∧
    (∀ (c : Cursor) (b1 b2 : Nat) (rest : List Nat),
      c.data.drop c.pos = 7 :: b1 :: b2 :: rest →
      ConstantPoolInfo.parse c =
        (Except.ok (ConstantPoolInfo.Class (b1 * 256 + b2)), ⟨c.data, c.pos + 1 + 2⟩)) ∧
    (∀ (c : Cursor) (b1 b2 b3 b4 : Nat) (rest : List Nat),
      c.data.drop c.pos = 9 :: b1 :: b2 :: b3 :: b4 :: rest →
      ConstantPoolInfo.parse c =
        (Except.ok (ConstantPoolInfo.Fieldref (b1 * 256 + b2) (b3 * 256 + b4)),
          ⟨c.data, c.pos + 1 + 2 + 2⟩)) ∧
    (∀ (c : Cursor) (b1 b2 b3 b4 : Nat) (rest : List Nat),
      c.data.drop c.pos = 10 :: b1 :: b2 :: b3 :: b4 :: rest →
      ConstantPoolInfo.parse c =
        (Except.ok (ConstantPoolInfo.Methodref (b1 * 256 + b2) (b3 * 256 + b4)),
          ⟨c.data, c.pos + 1 + 2 + 2⟩)) ∧
    (∀ (c : Cursor) (b1 b2 b3 b4 : Nat) (rest : List Nat),
      c.data.drop c.pos = 11 :: b1 :: b2 :: b3 :: b4 :: rest →
      ConstantPoolInfo.parse c =
        (Except.ok (ConstantPoolInfo.InterfaceMethodref (b1 * 256 + b2) (b3 * 256 + b4)),
          ⟨c.data, c.pos + 1 + 2 + 2⟩)) ∧
    (∀ (c : Cursor) (b1 b2 : Nat) (rest : List Nat),
      c.data.drop c.pos = 8 :: b1 :: b2 :: rest →
      ConstantPoolInfo.parse c =
        (Except.ok (ConstantPoolInfo.String (b1 * 256 + b2)), ⟨c.data, c.pos + 1 + 2⟩)) ∧
    (∀ (c : Cursor) (b1 b2 b3 b4 : Nat) (rest : List Nat),
      c.data.drop c.pos = 3 :: b1 :: b2 :: b3 :: b4 :: rest →
      ConstantPoolInfo.parse c =
        (Except.ok (ConstantPoolInfo.Integer (toInt32 (beVal [b1, b2, b3, b4]))),
          ⟨c.data, c.pos + 1 + 4⟩)) ∧
    (∀ (c : Cursor) (b1 b2 b3 b4 : Nat) (rest : List Nat),
      c.data.drop c.pos = 4 :: b1 :: b2 :: b3 :: b4 :: rest →
      ConstantPoolInfo.parse c =
        (Except.ok (ConstantPoolInfo.Float (beVal [b1, b2, b3, b4])),
          ⟨c.data, c.pos + 1 + 4⟩)) ∧
    (∀ (c : Cursor) (b1 b2 b3 b4 b5 b6 b7 b8 : Nat) (rest : List Nat),
      c.data.drop c.pos = 5 :: b1 :: b2 :: b3 :: b4 :: b5 :: b6 :: b7 :: b8 :: rest →
      ConstantPoolInfo.parse c =
        (Except.ok (ConstantPoolInfo.Long (toInt64 (beVal [b1, b2, b3, b4, b5, b6, b7, b8]))),
          ⟨c.data, c.pos + 1 + 8⟩)) ∧
    (∀ (c : Cursor) (b1 b2 b3 b4 b5 b6 b7 b8 : Nat) (rest : List Nat),
      c.data.drop c.pos = 6 :: b1 :: b2 :: b3 :: b4 :: b5 :: b6 :: b7 :: b8 :: rest →
      ConstantPoolInfo.parse c =
        (Except.ok (ConstantPoolInfo.Double (beVal [b1, b2, b3, b4, b5, b6, b7, b8])),
          ⟨c.data, c.pos + 1 + 8⟩)) ∧
    (∀ (c : Cursor) (b1 b2 b3 b4 : Nat) (rest : List Nat),
      c.data.drop c.pos = 12 :: b1 :: b2 :: b3 :: b4 :: rest →
      ConstantPoolInfo.parse c =
        (Except.ok (ConstantPoolInfo.NameAndType (b1 * 256 + b2) (b3 * 256 + b4)),
          ⟨c.data, c.pos + 1 + 2 + 2⟩)) ∧
    (∀ (c : Cursor) (l1 l2 : Nat) (s rest : List Nat),
      c.data.drop c.pos = 1 :: l1 :: l2 :: (s ++ rest) →
      s.length = l1 * 256 + l2 → utf8Valid s = true →
      ConstantPoolInfo.parse c =
        (Except.ok (ConstantPoolInfo.Utf8 s),
          ⟨c.data, c.pos + 1 + 2 + (l1 * 256 + l2)⟩)) ∧
    (∀ (c : Cursor) (b1 b2 b3 : Nat) (rest : List Nat),
      c.data.drop c.pos = 15 :: b1 :: b2 :: b3 :: rest →
      ConstantPoolInfo.parse c =
        (Except.ok (ConstantPoolInfo.MethodHandle b1 (b2 * 256 + b3)),
          ⟨c.data, c.pos + 1 + 1 + 2⟩)) ∧
    (∀ (c : Cursor) (b1 b2 : Nat) (rest : List Nat),
      c.data.drop c.pos = 16 :: b1 :: b2 :: rest →
      ConstantPoolInfo.parse c =
        (Except.ok (ConstantPoolInfo.MethodType (b1 * 256 + b2)), ⟨c.data, c.pos + 1 + 2⟩)) ∧
    (∀ (c : Cursor) (b1 b2 b3 b4 : Nat) (rest : List Nat),
      c.data.drop c.pos = 18 :: b1 :: b2 :: b3 :: b4 :: rest →
      ConstantPoolInfo.parse c =
        (Except.ok (ConstantPoolInfo.InvokeDynamic (b1 * 256 + b2) (b3 * 256 + b4)),
          ⟨c.data, c.pos + 1 + 2 + 2⟩)) ∧
    (∀ (c : Cursor) (tag : Nat) (rest : List Nat),
      c.data.drop c.pos = tag :: rest →
      tag ∉ [7, 9, 10, 11, 8, 3, 4, 5, 6, 12, 1, 15, 16, 18] →
      ConstantPoolInfo.parse c =
        (Except.error (Err.malformedConstantPoolTag tag), ⟨c.data, c.pos + 1⟩)) := by
  refine ⟨fun n c c' l h => parseListN_length ConstantPoolInfo.parse n c c' l h,
    ?_, ?_, ?_, ?_, ?_, ?_, ?_, ?_, ?_, ?_, ?_, ?_, ?_, ?_, ?_⟩
  · intro c b1 b2 rest h
    have p0 := parse_u1_of_prefix h
    have d0 := drop1_of_prefix h
    have p1 := parse_u2_of_prefix (c := ⟨c.data, c.pos + 1⟩) d0
    simp only [ConstantPoolInfo.parse]
    rw [ParseM.bind_of_ok p0]
    norm_num
    rw [ParseM.bind_of_ok p1]
    simp [ParseM.pure_eval]
  · intro c b1 b2 b3 b4 rest h
    have p0 := parse_u1_of_prefix h
    have d0 := drop1_of_prefix h
    have p1 := parse_u2_of_prefix (c := ⟨c.data, c.pos + 1⟩) d0
    have d1 := drop2_of_prefix d0
    have p2 := parse_u2_of_prefix (c := ⟨c.data, c.pos + 1 + 2⟩) d1
    simp only [ConstantPoolInfo.parse]
    rw [ParseM.bind_of_ok p0]
    norm_num
    rw [ParseM.bind_of_ok p1, ParseM.bind_of_ok p2]
    simp [ParseM.pure_eval]
  · intro c b1 b2 b3 b4 rest h
    have p0 := parse_u1_of_prefix h
    have d0 := drop1_of_prefix h
    have p1 := parse_u2_of_prefix (c := ⟨c.data, c.pos + 1⟩) d0
    have d1 := drop2_of_prefix d0
    have p2 := parse_u2_of_prefix (c := ⟨c.data, c.pos + 1 + 2⟩) d1
    simp only [ConstantPoolInfo.parse]
    rw [ParseM.bind_of_ok p0]
    norm_num
    rw [ParseM.bind_of_ok p1, ParseM.bind_of_ok p2]
    simp [ParseM.pure_eval]
  · intro c b1 b2 b3 b4 rest h
    have p0 := parse_u1_of_prefix h
    have d0 := drop1_of_prefix h
    have p1 := parse_u2_of_prefix (c := ⟨c.data, c.pos + 1⟩) d0
    have d1 := drop2_of_prefix d0
    have p2 := parse_u2_of_prefix (c := ⟨c.data, c.pos + 1 + 2⟩) d1
    simp only [ConstantPoolInfo.parse]
    rw [ParseM.bind_of_ok p0]
    norm_num
    rw [ParseM.bind_of_ok p1, ParseM.bind_of_ok p2]
    simp [ParseM.pure_eval]
  · intro c b1 b2 rest h
    have p0 := parse_u1_of_prefix h
    have d0 := drop1_of_prefix h
    have p1 := parse_u2_of_prefix (c := ⟨c.data, c.pos + 1⟩) d0
    simp only [ConstantPoolInfo.parse]
    rw [ParseM.bind_of_ok p0]
    norm_num
    rw [ParseM.bind_of_ok p1]
    simp [ParseM.pure_eval]
  · intro c b1 b2 b3 b4 rest h
    have p0 := parse_u1_of_prefix h
    have d0 := drop1_of_prefix h
    have p1 := parse_u4_as_i32_of_prefix (c := ⟨c.data, c.pos + 1⟩) d0
    simp only [ConstantPoolInfo.parse]
    rw [ParseM.bind_of_ok p0]
    norm_num
    rw [ParseM.bind_of_ok p1]
    simp [ParseM.pure_eval]
  · intro c b1 b2 b3 b4 rest h
    have p0 := parse_u1_of_prefix h
    have d0 := drop1_of_prefix h
    have p1 := parse_u4_as_f32_of_prefix (c := ⟨c.data, c.pos + 1⟩) d0
    simp only [ConstantPoolInfo.parse]
    rw [ParseM.bind_of_ok p0]
    norm_num
    rw [ParseM.bind_of_ok p1]
    simp [ParseM.pure_eval]
  · intro c b1 b2 b3 b4 b5 b6 b7 b8 rest h
    have p0 := parse_u1_of_prefix h
    have d0 := drop1_of_prefix h
    have p1 := parse_u8_as_i64_of_prefix (c := ⟨c.data, c.pos + 1⟩) d0
    simp only [ConstantPoolInfo.parse]
    rw [ParseM.bind_of_ok p0]
    norm_num
    rw [ParseM.bind_of_ok p1]
    simp [ParseM.pure_eval]
  · intro c b1 b2 b3 b4 b5 b6 b7 b8 rest h
    have p0 := parse_u1_of_prefix h
    have d0 := drop1_of_prefix h
    have p1 := parse_u8_as_f64_of_prefix (c := ⟨c.data, c.pos + 1⟩) d0
    simp only [ConstantPoolInfo.parse]
    rw [ParseM.bind_of_ok p0]
    norm_num
    rw [ParseM.bind_of_ok p1]
    simp [ParseM.pure_eval]
  · intro c b1 b2 b3 b4 rest h
    have p0 := parse_u1_of_prefix h
    have d0 := drop1_of_prefix h
    have p1 := parse_u2_of_prefix (c := ⟨c.data, c.pos + 1⟩) d0
    have d1 := drop2_of_prefix d0
    have p2 := parse_u2_of_prefix (c := ⟨c.data, c.pos + 1 + 2⟩) d1
    simp only [ConstantPoolInfo.parse]
    rw [ParseM.bind_of_ok p0]
    norm_num
    rw [ParseM.bind_of_ok p1, ParseM.bind_of_ok p2]
    simp [ParseM.pure_eval]
  · intro c l1 l2 s rest h hlen hv
    have p0 := parse_u1_of_prefix h
    have d0 := drop1_of_prefix h
    have p1 := parse_u2_of_prefix (c := ⟨c.data, c.pos + 1⟩) d0
    have d1 := drop2_of_prefix d0
    have p2 := parse_utf8_of_prefix (c := ⟨c.data, c.pos + 1 + 2⟩) hlen hv d1
    simp only [ConstantPoolInfo.parse]
    rw [ParseM.bind_of_ok p0]
    norm_num
    rw [ParseM.bind_of_ok p1, ParseM.bind_of_ok p2]
    simp [ParseM.pure_eval]
  · intro c b1 b2 b3 rest h
    have p0 := parse_u1_of_prefix h
    have d0 := drop1_of_prefix h
    have p1 := parse_u1_of_prefix (c := ⟨c.data, c.pos + 1⟩) d0
    have d1 := drop1_of_prefix d0
    have p2 := parse_u2_of_prefix (c := ⟨c.data, c.pos + 1 + 1⟩) d1
    simp only [ConstantPoolInfo.parse]
    rw [ParseM.bind_of_ok p0]
    norm_num
    rw [ParseM.bind_of_ok p1, ParseM.bind_of_ok p2]
    simp [ParseM.pure_eval]
  · intro c b1 b2 rest h
    have p0 := parse_u1_of_prefix h
    have d0 := drop1_of_prefix h
    have p1 := parse_u2_of_prefix (c := ⟨c.data, c.pos + 1⟩) d0
    simp only [ConstantPoolInfo.parse]
    rw [ParseM.bind_of_ok p0]
    norm_num
    rw [ParseM.bind_of_ok p1]
    simp [ParseM.pure_eval]
  · intro c b1 b2 b3 b4 rest h
    have p0 := parse_u1_of_prefix h
    have d0 := drop1_of_prefix h
    have p1 := parse_u2_of_prefix (c := ⟨c.data, c.pos + 1⟩) d0
    have d1 := drop2_of_prefix d0
    have p2 := parse_u2_of_prefix (c := ⟨c.data, c.pos + 1 + 2⟩) d1
    simp only [ConstantPoolInfo.parse]
    rw [ParseM.bind_of_ok p0]
    norm_num
    rw [ParseM.bind_of_ok p1, ParseM.bind_of_ok p2]
    simp [ParseM.pure_eval]
  · intro c tag rest h hmem
    simp only [List.mem_cons, List.mem_singleton, not_or] at hmem
    obtain ⟨n7, n9, n10, n11, n8, n3, n4, n5, n6, n12, n1, n15, n16, n18⟩ := hmem
    have p0 := parse_u1_of_prefix h
    simp only [ConstantPoolInfo.parse]
    rw [ParseM.bind_of_ok p0]
    simp [n7, n9, n10, n11, n8, n3, n4, n5, n6, n12, n1, n15, n16, n18, pthrow]

/-- C7 witness: the amended theorem applied at concrete streams — a `Long`
entry consumes exactly 9 bytes as one entry, a two-entry pool parses to a
2-element list, and the invalid tag 2 fails after exactly the tag byte. -/
theorem claim7_witness :
    ConstantPoolInfo.parse ⟨[5, 0, 0, 0, 0, 0, 0, 1, 2, 99], 0⟩ =
      (Except.ok (ConstantPoolInfo.Long 258), ⟨[5, 0, 0, 0, 0, 0, 0, 1, 2, 99], 9⟩) ∧
    (∀ (c' : Cursor) (l : List ConstantPoolInfo),
      parseListN ConstantPoolInfo.parse 2 ⟨[7, 0, 1, 8, 0, 2], 0⟩ = (Except.ok l, c') →
      l.length = 2) ∧
    ConstantPoolInfo.parse ⟨[2, 1, 2], 0⟩ =
      (Except.error (Err.malformedConstantPoolTag 2), ⟨[2, 1, 2], 1⟩) := by
  refine ⟨?_, ?_, ?_⟩
  · have := claim7_amended.2.2.2.2.2.2.2.2.1 ⟨[5, 0, 0, 0, 0, 0, 0, 1, 2, 99], 0⟩
      0 0 0 0 0 0 1 2 [99] rfl
    simpa using this
  · intro c' l h
    exact claim7_amended.1 2 ⟨[7, 0, 1, 8, 0, 2], 0⟩ c' l h
  · exact claim7_amended.2.2.2.2.2.2.2.2.2.2.2.2.2.2.2 ⟨[2, 1, 2], 0⟩ 2 [1, 2] rfl
      (by decide)

/-! ### Claim C8: round-trip of the `Code` attribute -/

theorem parse_u2_of_u2bytes {c : Cursor} {n : Nat} {rest : List Nat} (hn : n < 2 ^ 16)
    (h : c.data.drop c.pos = u2bytes n ++ rest) :
    parse_u2 c = (Except.ok n, ⟨c.data, c.pos + 2⟩) := by
  have h' : c.data.drop c.pos = n / 256 % 256 :: n % 256 :: rest := h
  have := parse_u2_of_prefix h'
  rwa [u2_roundtrip hn] at this

theorem parse_u4_of_u4bytes {c : Cursor} {n : Nat} {rest : List Nat} (hn : n < 2 ^ 32)
    (h : c.data.drop c.pos = u4bytes n ++ rest) :
    parse_u4 c = (Except.ok n, ⟨c.data, c.pos + 4⟩) := by
  have h' : c.data.drop c.pos =
      n / 2 ^ 24 % 256 :: n / 2 ^ 16 % 256 :: n / 256 % 256 :: n % 256 :: rest := h
  have hthis := parse_u4_of_prefix h'
  have hv : beVal [n / 2 ^ 24 % 256, n / 2 ^ 16 % 256, n / 256 % 256, n % 256] = n := by
    simp only [beVal, List.foldl]
    omega
  rwa [hv] at hthis

theorem u2bytes_length (n : Nat) : (u2bytes n).length = 2 := rfl

theorem u4bytes_length (n : Nat) : (u4bytes n).length = 4 := rfl

theorem wfAttrList_mem {pool : List ConstantPoolInfo} :
    ∀ {l : List AttributeInfo}, wfAttrList pool l = true →
      ∀ a ∈ l, wfAttr pool a = true := by
  intro l
  induction l with
  | nil => intro _ a ha; simp at ha
  | cons x xs ih =>
    intro h a ha
    simp only [wfAttrList, Bool.and_eq_true] at h
    rcases List.mem_cons.mp ha with rfl | hmem
    · exact h.1
    · exact ih h.2 a hmem

theorem serializeAttrList_eq :
    ∀ l : List AttributeInfo, serializeAttrList l = serList serializeAttr l := by
  intro l
  induction l with
  | nil => rfl
  | cons x xs ih => simp [serializeAttrList, serList, ih]

/-- The serialised attribute has its name index, payload length and payload
in sequence; stated in fully right-nested form for the prefix lemmas. -/
theorem serializeAttr_decomp (ani : Nat) (an : List Nat) (k : AttributeKind) :
    serializeAttr (AttributeInfo.mk ani an k) =
      u2bytes ani ++ (u4bytes (serializePayload k).length ++ serializePayload k) := by
  simp [serializeAttr, List.append_assoc]

/-- Round-trip of attribute parsing against the serialiser: a well-formed
attribute followed by arbitrary trailing bytes parses back to itself, the
cursor stopping exactly after the serialised form.  Fuel bounds the nesting
depth through `sizeOf`. -/
theorem liftExcept_ok_eval {α : Type} (v : α) (c : Cursor) :
    liftExcept (Except.ok v) c = (Except.ok v, c) := rfl

theorem ParseM.pure_apply {α : Type} (a : α) (c : Cursor) :
    ParseM.pure a c = (Except.ok a, c) := rfl

theorem ParseM.pure_bind_eval {α β : Type} (a : α) (f : α → ParseM β) (c : Cursor) :
    (ParseM.pure a >>= f) c = f a c := rfl

/-- Round-trip of attribute parsing against the serialiser: a well-formed
attribute followed by arbitrary trailing bytes parses back to itself, the
cursor stopping exactly after the serialised form.  Fuel bounds the nesting
depth through `sizeOf`. -/
theorem parseAttr_roundtrip (pool : List ConstantPoolInfo) :
    ∀ (fuel : Nat) (a : AttributeInfo), sizeOf a ≤ fuel → wfAttr pool a = true →
      ∀ (c : Cursor) (rest : List Nat), c.data.drop c.pos = serializeAttr a ++ rest →
      AttributeInfo.parse pool fuel c =
        (Except.ok a, ⟨c.data, c.pos + (serializeAttr a).length⟩) := by
  intro fuel
  induction fuel with
  | zero =>
    intro a hsz hwf c rest h
    obtain ⟨ani, an, k⟩ := a
    simp at hsz
  | succ fuel ih =>
    intro a hsz hwf c rest h
    obtain ⟨ani, an, k⟩ := a
    simp only [wfAttr, Bool.and_eq_true, decide_eq_true_eq] at hwf
    rcases hg : get_utf8_from_index pool ani with e | v
    · rw [hg] at hwf; simp at hwf
    · rw [hg] at hwf
      simp only [decide_eq_true_eq] at hwf
      obtain ⟨⟨⟨hani, hv⟩, hplen⟩, hpay⟩ := hwf
      subst hv
      rw [serializeAttr_decomp] at h
      simp only [List.append_assoc] at h
      have p1 := parse_u2_of_u2bytes hani h
      have d1 := @drop_shift c.data c.pos 2 (u2bytes ani)
        (u4bytes (serializePayload k).length ++ (serializePayload k ++ rest)) rfl h
      have p2 := parse_u4_of_u4bytes (c := ⟨c.data, c.pos + 2⟩) hplen d1
      have d2 := @drop_shift c.data (c.pos + 2) 4
        (u4bytes (serializePayload k).length) (serializePayload k ++ rest) rfl d1
      have p3 := parse_n_bytes_of_prefix (c := ⟨c.data, c.pos + 2 + 4⟩) rfl d2
      have hlift : liftExcept (Except.ok v) (⟨c.data, c.pos + 2⟩ : Cursor) =
          (Except.ok v, ⟨c.data, c.pos + 2⟩) := rfl
      simp only [AttributeInfo.parse]
      rw [ParseM.bind_of_ok p1, hg, ParseM.bind_of_ok hlift,
        ParseM.bind_of_ok p2, ParseM.bind_of_ok p3]
      -- dispatch on the attribute kind; payload well-formedness pins the
      -- stored name for each variant
      cases k with
      | ConstantValue i =>
        simp only [wfPayload, Bool.and_eq_true, decide_eq_true_eq] at hpay
        obtain ⟨han, hi⟩ := hpay
        subst han
        rw [if_pos rfl]
        have hsplit : List.drop 0 (serializePayload (AttributeKind.ConstantValue i)) =
            u2bytes i ++ [] := by
          simp [serializePayload]
        have q1 : parse_u2 ⟨serializePayload (AttributeKind.ConstantValue i), 0⟩ =
            (Except.ok i, ⟨serializePayload (AttributeKind.ConstantValue i), 2⟩) :=
          parse_u2_of_u2bytes hi hsplit
        rw [q1]
        simp [ParseM.pure_bind_eval, ParseM.pure_eval, ParseM.pure_apply,
          serializeAttr, serializePayload, u2bytes_length, u4bytes_length]
      | SourceFile i v2 =>
        simp only [wfPayload, Bool.and_eq_true, decide_eq_true_eq] at hpay
        rcases hg2 : get_utf8_from_index pool i with e2 | w
        · rw [hg2] at hpay; simp at hpay
        · rw [hg2] at hpay
          simp only [decide_eq_true_eq] at hpay
          obtain ⟨⟨han, hi⟩, hw⟩ := hpay
          subst han
          subst hw
          rw [if_neg (by decide), if_neg (by decide), if_pos rfl]
          have hsplit : List.drop 0 (serializePayload (AttributeKind.SourceFile i w)) =
              u2bytes i ++ [] := by
            simp [serializePayload]
          have q1 : parse_u2 ⟨serializePayload (AttributeKind.SourceFile i w), 0⟩ =
              (Except.ok i, ⟨serializePayload (AttributeKind.SourceFile i w), 2⟩) :=
            parse_u2_of_u2bytes hi hsplit
          have hlift2 : liftExcept (Except.ok w)
              (⟨serializePayload (AttributeKind.SourceFile i w), 2⟩ : Cursor) =
              (Except.ok w,
                ⟨serializePayload (AttributeKind.SourceFile i w), 2⟩) := rfl
          rw [ParseM.bind_of_ok q1, hg2, ParseM.bind_of_ok hlift2, ParseM.pure_apply]
          simp [ParseM.pure_bind_eval, ParseM.pure_eval, ParseM.pure_apply,
            serializeAttr, serializePayload, u2bytes_length, u4bytes_length]
      | LineNumberTable rows =>
        simp only [wfPayload, Bool.and_eq_true, decide_eq_true_eq] at hpay
        obtain ⟨⟨han, hrows⟩, hall⟩ := hpay
        subst han
        rw [if_neg (by decide), if_neg (by decide), if_neg (by decide), if_pos rfl]
        have hsplit : List.drop 0 (serializePayload (AttributeKind.LineNumberTable rows)) =
            u2bytes rows.length ++ (serList serializeLineNumber rows ++ []) := by
          simp [serializePayload]
        have q1 : parse_u2 ⟨serializePayload (AttributeKind.LineNumberTable rows), 0⟩ =
            (Except.ok rows.length,
              ⟨serializePayload (AttributeKind.LineNumberTable rows), 2⟩) :=
          parse_u2_of_u2bytes hrows hsplit
        have k1 : List.drop 2 (serializePayload (AttributeKind.LineNumberTable rows)) =
            serList serializeLineNumber rows ++ [] :=
          @drop_shift (serializePayload (AttributeKind.LineNumberTable rows)) 0 2
            (u2bytes rows.length) _ rfl hsplit
        have q2 : parseListN LineNumber.parse rows.length
            ⟨serializePayload (AttributeKind.LineNumberTable rows), 2⟩ =
            (Except.ok rows, ⟨serializePayload (AttributeKind.LineNumberTable rows),
              2 + (serList serializeLineNumber rows).length⟩) :=
          parseListN_of LineNumber.parse (fun l => wfLineNumber l = true)
            serializeLineNumber (fun l hl c rest h => lineNumberParse_of_prefix hl h)
            rows ⟨serializePayload (AttributeKind.LineNumberTable rows), 2⟩ _
            (fun l hl => by
              have := List.all_eq_true.mp hall l hl
              simpa using this) k1
        rw [ParseM.bind_of_ok q1, ParseM.bind_of_ok q2, ParseM.pure_apply]
        simp [ParseM.pure_bind_eval, ParseM.pure_eval, ParseM.pure_apply,
          serializeAttr, serializePayload, u2bytes_length, u4bytes_length]
        omega
      | Other bytes =>
        simp only [wfPayload, Bool.and_eq_true, Bool.not_eq_true', decide_eq_false_iff_not]
          at hpay
        obtain ⟨⟨⟨h1, h2⟩, h3⟩, h4⟩ := hpay
        rw [if_neg h1, if_neg h2, if_neg h3, if_neg h4]
        simp [ParseM.pure_bind_eval, ParseM.pure_eval, ParseM.pure_apply,
          serializeAttr, serializePayload, u2bytes_length, u4bytes_length]
        omega
      | Code ms ml cd et ats =>
        simp only [wfPayload, Bool.and_eq_true, decide_eq_true_eq] at hpay
        obtain ⟨⟨⟨⟨⟨⟨⟨han, hms⟩, hml⟩, hcd⟩, het⟩, hallet⟩, hats⟩, hwfats⟩ := hpay
        subst han
        rw [if_neg (by decide), if_pos rfl]
        set P := serializePayload (AttributeKind.Code ms ml cd et ats) with hP
        have hsplit : List.drop 0 P =
            u2bytes ms ++ (u2bytes ml ++ (u4bytes cd.length ++ (cd ++
              (u2bytes et.length ++ (serList serializeException et ++
                (u2bytes ats.length ++ (serList serializeAttr ats ++ []))))))) := by
          rw [hP]
          simp [serializePayload, serializeAttrList_eq, List.append_assoc]
        have q1 : parse_u2 ⟨P, 0⟩ = (Except.ok ms, ⟨P, 2⟩) :=
          parse_u2_of_u2bytes hms hsplit
        have k1 : List.drop 2 P = u2bytes ml ++ (u4bytes cd.length ++ (cd ++
            (u2bytes et.length ++ (serList serializeException et ++
              (u2bytes ats.length ++ (serList serializeAttr ats ++ [])))))) :=
          @drop_shift P 0 2 (u2bytes ms) _ rfl hsplit
        have q2 : parse_u2 ⟨P, 2⟩ = (Except.ok ml, ⟨P, 4⟩) :=
          parse_u2_of_u2bytes hml k1
        have k2 : List.drop 4 P = u4bytes cd.length ++ (cd ++ (u2bytes et.length ++
            (serList serializeException et ++ (u2bytes ats.length ++
              (serList serializeAttr ats ++ []))))) :=
          @drop_shift P 2 2 (u2bytes ml) _ rfl k1
        have q3 : parse_u4 ⟨P, 4⟩ = (Except.ok cd.length, ⟨P, 8⟩) :=
          parse_u4_of_u4bytes hcd k2
        have k3 : List.drop 8 P = cd ++ (u2bytes et.length ++
            (serList serializeException et ++ (u2bytes ats.length ++
              (serList serializeAttr ats ++ [])))) :=
          @drop_shift P 4 4 (u4bytes cd.length) _ rfl k2
        have q4 : parse_n_bytes cd.length ⟨P, 8⟩ = (Except.ok cd, ⟨P, 8 + cd.length⟩) :=
          parse_n_bytes_of_prefix rfl k3
        have k4 : List.drop (8 + cd.length) P = u2bytes et.length ++
            (serList serializeException et ++ (u2bytes ats.length ++
              (serList serializeAttr ats ++ []))) :=
          @drop_shift P 8 cd.length cd _ rfl k3
        have q5 : parse_u2 ⟨P, 8 + cd.length⟩ =
            (Except.ok et.length, ⟨P, 8 + cd.length + 2⟩) :=
          parse_u2_of_u2bytes het k4
        have k5 : List.drop (8 + cd.length + 2) P = serList serializeException et ++
            (u2bytes ats.length ++ (serList serializeAttr ats ++ [])) :=
          @drop_shift P (8 + cd.length) 2 (u2bytes et.length) _ rfl k4
        have q6 : parseListN Exception.parse et.length ⟨P, 8 + cd.length + 2⟩ =
            (Except.ok et,
              ⟨P, 8 + cd.length + 2 + (serList serializeException et).length⟩) :=
          parseListN_of Exception.parse (fun e => wfException e = true)
            serializeException (fun e he c rest h => exceptionParse_of_prefix he h)
            et ⟨P, 8 + cd.length + 2⟩ _
            (fun e he => by
              have := List.all_eq_true.mp hallet e he
              simpa using this) k5
        have k6 : List.drop (8 + cd.length + 2 + (serList serializeException et).length) P =
            u2bytes ats.length ++ (serList serializeAttr ats ++ []) :=
          @drop_shift P (8 + cd.length + 2) (serList serializeException et).length
            (serList serializeException et) _ rfl k5
        have q7 : parse_u2 ⟨P, 8 + cd.length + 2 + (serList serializeException et).length⟩ =
            (Except.ok ats.length,
              ⟨P, 8 + cd.length + 2 + (serList serializeException et).length + 2⟩) :=
          parse_u2_of_u2bytes hats k6
        have k7 : List.drop
            (8 + cd.length + 2 + (serList serializeException et).length + 2) P =
            serList serializeAttr ats ++ [] :=
          @drop_shift P (8 + cd.length + 2 + (serList serializeException et).length) 2
            (u2bytes ats.length) _ rfl k6
        have hszats : ∀ a' ∈ ats, sizeOf a' ≤ fuel ∧ wfAttr pool a' = true := by
          intro a' ha'
          refine ⟨?_, wfAttrList_mem hwfats a' ha'⟩
          have hlt := List.sizeOf_lt_of_mem ha'
          simp at hsz
          omega
        have q8 : parseListN (AttributeInfo.parse pool fuel) ats.length
            ⟨P, 8 + cd.length + 2 + (serList serializeException et).length + 2⟩ =
            (Except.ok ats,
              ⟨P, 8 + cd.length + 2 + (serList serializeException et).length + 2 +
                (serList serializeAttr ats).length⟩) :=
          parseListN_of (AttributeInfo.parse pool fuel)
            (fun a' => sizeOf a' ≤ fuel ∧ wfAttr pool a' = true) serializeAttr
            (fun a' hp c rest h => ih a' hp.1 hp.2 c rest h)
            ats ⟨P, 8 + cd.length + 2 + (serList serializeException et).length + 2⟩ []
            hszats k7
        rw [ParseM.bind_of_ok q1, ParseM.bind_of_ok q2, ParseM.bind_of_ok q3,
          ParseM.bind_of_ok q4, ParseM.bind_of_ok q5, ParseM.bind_of_ok q6,
          ParseM.bind_of_ok q7, ParseM.bind_of_ok q8, ParseM.pure_apply]
        simp [ParseM.pure_bind_eval, ParseM.pure_eval, ParseM.pure_apply, hP,
          serializeAttr, serializePayload, u2bytes_length, u4bytes_length]
        omega
      | StackMapTable => simp [wfPayload] at hpay
      | Exceptions => simp [wfPayload] at hpay
      | InnerClasses => simp [wfPayload] at hpay
      | EnclosingMethod => simp [wfPayload] at hpay
      | Synthetic => simp [wfPayload] at hpay
      | Signature => simp [wfPayload] at hpay
      | SourceDebugExtension => simp [wfPayload] at hpay
      | LocalVariableTable => simp [wfPayload] at hpay
      | LocalVariableTypeTable => simp [wfPayload] at hpay
      | Deprecated => simp [wfPayload] at hpay
      | RuntimeVisibleAnnotationList => simp [wfPayload] at hpay
      | RuntimeInvisibleAnnotationList => simp [wfPayload] at hpay
      | RuntimeVisibleParameterAnnotationList => simp [wfPayload] at hpay
      | RuntimeInvisibleParameterAnnotationList => simp [wfPayload] at hpay
      | AnnotationDefault => simp [wfPayload] at hpay
      | BootstrapMethods => simp [wfPayload] at hpay

/-- C8: round-trip of the `Code` attribute — serialising a well-formed
`Code` attribute with max_stack `ms`, max_locals `ml`, instruction bytes
`cd`, exception rows `et` and nested attributes `ats`, and parsing the
serialised bytes, reproduces exactly the same attribute: the same `ms` and
`ml`, the identical byte sequence `cd`, the rows of `et` in their original
order and the sub-attributes `ats` in their original order (the parse
returns the very same value), consuming the whole serialised form. -/
theorem claim8_code_roundtrip (pool : List ConstantPoolInfo) (ani : Nat) (an : List Nat)
    (ms ml : Nat) (cd : List Nat) (et : List Exception) (ats : List AttributeInfo)
    (fuel : Nat)
    (hwf : wfAttr pool (AttributeInfo.mk ani an (AttributeKind.Code ms ml cd et ats)) = true)
    (hfuel : sizeOf (AttributeInfo.mk ani an (AttributeKind.Code ms ml cd et ats)) ≤ fuel) :
    AttributeInfo.parse pool fuel
      ⟨serializeAttr (AttributeInfo.mk ani an (AttributeKind.Code ms ml cd et ats)), 0⟩ =
      (Except.ok (AttributeInfo.mk ani an (AttributeKind.Code ms ml cd et ats)),
        ⟨serializeAttr (AttributeInfo.mk ani an (AttributeKind.Code ms ml cd et ats)),
          (serializeAttr
            (AttributeInfo.mk ani an (AttributeKind.Code ms ml cd et ats))).length⟩) := by
  have h : (⟨serializeAttr (AttributeInfo.mk ani an (AttributeKind.Code ms ml cd et ats)),
      0⟩ : Cursor).data.drop 0 =
      serializeAttr (AttributeInfo.mk ani an (AttributeKind.Code ms ml cd et ats)) ++ [] := by
    simp
  have := parseAttr_roundtrip pool fuel
    (AttributeInfo.mk ani an (AttributeKind.Code ms ml cd et ats)) hfuel hwf
    ⟨serializeAttr (AttributeInfo.mk ani an (AttributeKind.Code ms ml cd et ats)), 0⟩ [] h
  simpa using this

/-- C8 witness: the theorem applied to `demoCodeAttr` (one exception row,
two nested attributes — an opaque one and a `SourceFile`) over
`attrNamePool`, with exactly enough fuel. -/
theorem claim8_witness :
    wfAttr attrNamePool demoCodeAttr = true ∧
    AttributeInfo.parse attrNamePool (sizeOf demoCodeAttr)
      ⟨serializeAttr demoCodeAttr, 0⟩ =
      (Except.ok demoCodeAttr,
        ⟨serializeAttr demoCodeAttr, (serializeAttr demoCodeAttr).length⟩) := by
  refine ⟨by decide, ?_⟩
  exact claim8_code_roundtrip attrNamePool 1 (asciiBytes "Code") 2 3
    [0xb2, 0, 6, 0x57] [⟨1, 2, 3, 0⟩]
    [AttributeInfo.mk 2 (asciiBytes "Whatever") (AttributeKind.Other [9, 9, 9]),
     AttributeInfo.mk 3 (asciiBytes "SourceFile")
       (AttributeKind.SourceFile 4 (asciiBytes "Main.java"))]
    (sizeOf demoCodeAttr) (by decide) (Nat.le_refl _)

end RustJvm
